import Mathlib

/-!
# Archery Challenge (game.js): a shallow embedding

The global variables of the script are the fields of `State`; every function
of the script takes the state and returns the new one.  What the host supplies
while a function runs is an argument: the value of `performance.now()`, the
stream of `Math.random()` answers, the pointer position, the window size.

Numbers.  Quantities that the script only ever builds from integer literals by
addition and subtraction (`score`, `arrowsLeft`, the point values) are
integers.  `highScore` is an integer or `NaN` (`JSNum`), because `parseInt`
can answer `NaN`.  Every other number lives in an ordered field `α` with a
floor function (`ℚ` to compute, `ℝ` to reason about the real functions), with
exact arithmetic: rounding, infinities and `NaN` of IEEE doubles are outside
the model for these.  `Math.floor`, `Math.ceil`, `Math.min` and `Math.max` are
the exact operations of `α`; the rest of the host `Math` object is a parameter
(`MathOps`).

Arrays are lists; a loop that runs from the last index down and removes the
element it visits with `splice(i, 1)` is a right fold.  Drawing (`render`,
`drawStickman`, the `draw` methods) and `requestAnimationFrame` do not assign
any global and are left out.
-/

namespace Archery

/-- Host `Math` object: the constant and the functions of it that game.js calls
and that are not exact field operations. -/
structure MathOps (α : Type) where
  PI : α
  sin : α → α
  cos : α → α
  atan2 : α → α → α
  hypot : α → α → α

/-- A JavaScript number that is either `NaN` or an integer: the values that
`highScore` can hold (`parseInt` yields an integer or `NaN`, `score` is an
integer). -/
inductive JSNum where
  | nan : JSNum
  | int (n : ℤ) : JSNum
  deriving DecidableEq, Repr

/-- JavaScript `a > b` for an integer `a` and a `JSNum` `b`: false when `b` is
`NaN`. -/
def JSNum.ltInt : JSNum → ℤ → Bool
  | .nan, _ => false
  | .int h, a => decide (h < a)

section Entities

variable {α : Type} [LinearOrderedField α] [FloorRing α]

/-- `Math.floor` as a number of the same type. -/
def jsFloor (x : α) : α := ((⌊x⌋ : ℤ) : α)

/-- Fields of `class Arrow`.  `stuckTo` is `null` or the single global target:
`true` stands for a reference to that target. -/
structure Arrow (α : Type) where
  x : α
  y : α
  vx : α
  vy : α
  angle : α
  stuck : Bool
  stuckTo : Bool
  localX : α
  localY : α

/-- Fields of `class Target`. -/
structure Target (α : Type) where
  x : α
  y : α
  radius : α
  vx : α
  rings : List α
  points : List ℤ
  wobble : α

/-- Fields of `class Particle`. -/
structure Particle (α : Type) where
  x : α
  y : α
  vx : α
  vy : α
  color : String
  life : α
  init : α

/-- The object literal pushed on `powerups`. -/
structure Powerup (α : Type) where
  x : α
  y : α
  vx : α
  bob : α

/-- Fields of `class Popup`. -/
structure Popup (α : Type) where
  x : α
  y : α
  text : String
  life : α

/-- `Target.setup()`. -/
def Target.setup (t : Target α) : Target α :=
  { t with rings := [t.radius, jsFloor (t.radius * 0.72), jsFloor (t.radius * 0.48),
                     jsFloor (t.radius * 0.28)] }

/-- The `new Target(x, y, r, vx)` constructor. -/
def Target.new (x y r vx : α) : Target α :=
  { (Target.setup { x := x, y := y, radius := r, vx := vx, rings := [],
                    points := [10, 30, 60, 100], wobble := 0 }) with wobble := 0 }

/-- `Target.hit(px, py)`. -/
def Target.hit (M : MathOps α) (t : Target α) (px py : α) : Bool :=
  decide (M.hypot (px - t.x) (py - t.y) ≤ t.radius)

/-- The loop of `pointsFor`, with `i + 1` the number of rings still to test:
`for (i = ...; i >= 0; --i) if (d <= rings[i]) return points[i]`, then
`return 0`.  Inside the loop `i < rings.length`; `rings` and `points` have the
same length in every target the program builds, so the defaults of `getD` are
never read. -/
def Target.pointsForFrom (t : Target α) (d : α) : ℕ → ℤ
  | 0 => 0
  | i + 1 => if d ≤ t.rings.getD i 0 then t.points.getD i 0 else Target.pointsForFrom t d i

/-- `Target.pointsFor(px, py)`. -/
def Target.pointsFor (M : MathOps α) (t : Target α) (px py : α) : ℤ :=
  Target.pointsForFrom t (M.hypot (px - t.x) (py - t.y)) t.rings.length

/-- `Particle.update(dt)`; `gravity` is the global of that name. -/
def Particle.update (gravity dt : α) (p : Particle α) : Particle α :=
  let vy1 := p.vy + gravity * dt
  let vx2 := p.vx - p.vx * 1.2 * dt
  let vy2 := vy1 - vy1 * 0.6 * dt
  { p with vx := vx2, vy := vy2, x := p.x + vx2 * dt, y := p.y + vy2 * dt, life := p.life - dt }

/-- `Popup.update(dt)`. -/
def Popup.update (dt : α) (p : Popup α) : Popup α :=
  { p with life := p.life - dt }

/-- `commentaryFor(pts)`. -/
def commentaryFor (pts : ℤ) : String :=
  if pts ≥ 100 then "Excellent!"
  else if pts ≥ 60 then "Very Good!"
  else if pts ≥ 30 then "Good!"
  else "Nice!"

end Entities

section Store

/-- `localStorage`, as far as the script uses it: whether an access succeeds
(`available = false`: every call throws), the string stored under the key
`archery_high` (`none`: `getItem` answers `null`), and the trace of the
arguments of the `setItem` calls made so far. -/
structure Storage where
  available : Bool
  item : Option String
  setItemCalls : List String
  deriving DecidableEq, Repr

/-- White space that `parseInt` skips (the code points of ECMAScript
`WhiteSpace` and `LineTerminator`). -/
def isJSWhiteSpace (c : Char) : Bool :=
  let n := c.toNat
  n == 9 || n == 10 || n == 11 || n == 12 || n == 13 || n == 32 || n == 160 || n == 5760 ||
  (8192 ≤ n && n ≤ 8202) || n == 8232 || n == 8233 || n == 8239 || n == 8287 || n == 12288 ||
  n == 65279

/-- Value of a character as a digit of the given radix, if it is one. -/
def digitValue (radix : ℕ) (c : Char) : Option ℕ :=
  let n := c.toNat
  let v := if 48 ≤ n ∧ n ≤ 57 then n - 48
           else if 97 ≤ n ∧ n ≤ 122 then n - 87
           else if 65 ≤ n ∧ n ≤ 90 then n - 55
           else radix
  if v < radix then some v else none

/-- The longest run of digits at the head of the list, read in the given radix:
`none` when the list does not start with a digit. -/
def readDigits (radix : ℕ) : List Char → Option ℕ → Option ℕ
  | [], acc => acc
  | c :: cs, acc =>
    match digitValue radix c with
    | none => acc
    | some d => readDigits radix cs (some (acc.getD 0 * radix + d))

/-- Host function `parseInt(string)` called with one argument (ECMAScript
`parseInt` with an undefined radix): skips leading white space, reads an
optional sign, an optional `0x`/`0X` prefix selecting radix 16, then the
longest run of digits; `NaN` when there is no digit. -/
def parseInt (str : String) : JSNum :=
  let s0 := str.toList.dropWhile isJSWhiteSpace
  let (neg, s1) := match s0 with
    | '-' :: r => (true, r)
    | '+' :: r => (false, r)
    | r => (false, r)
  let (radix, s2) := match s1 with
    | '0' :: 'x' :: r => (16, r)
    | '0' :: 'X' :: r => (16, r)
    | r => (10, r)
  match readDigits radix s2 none with
  | none => JSNum.nan
  | some v => JSNum.int (if neg then - (v : ℤ) else (v : ℤ))

/-- Host conversion `String(n)` for the values `highScore` can hold. -/
def jsString : JSNum → String
  | .nan => "NaN"
  | .int n => toString n

/-- `localStorage.getItem('archery_high')`: `none` when the call throws. -/
def Storage.getItem (st : Storage) : Option (Option String) :=
  if st.available then some st.item else none

/-- `localStorage.setItem('archery_high', v)`; a call that throws stores
nothing. -/
def Storage.setItem (st : Storage) (v : String) : Storage :=
  { st with item := if st.available then some v else st.item,
            setItemCalls := st.setItemCalls ++ [v] }

end Store

section Game

variable {α : Type} [LinearOrderedField α] [FloorRing α]

/-- The text of the four HUD elements, as the values `updateHUD` interpolates
into them. -/
structure HUD where
  score : ℤ
  high : JSNum
  arrows : ℤ
  time : ℤ
  deriving DecidableEq, Repr

/-- The global variables of the script and the parts of the host it reads and
writes: the window size, the value of the difficulty selector, local storage,
the HUD, the number of `Math.random()` calls made so far (the `n`-th call
answers `rnd n` of the random stream given to each function), and the
arguments (score, high score) of the `alert` calls so far.  `target` is `none`
while the global is still undefined. -/
structure State (α : Type) where
  innerWidth : α
  innerHeight : α
  diffSel : String
  storage : Storage
  hud : HUD
  randomCalls : ℕ
  alerts : List (ℤ × JSNum)
  W : α
  H : α
  groundY : α
  archerX : α
  archerY : α
  arrowLen : α
  gravity : α
  arrows : List (Arrow α)
  particles : List (Particle α)
  powerups : List (Powerup α)
  popups : List (Popup α)
  target : Option (Target α)
  score : ℤ
  arrowsLeft : ℤ
  timeLeft : α
  highScore : JSNum
  charging : Bool
  chargeStart : α
  aimAngle : α
  pointerActive : Bool
  pointerX : α
  pointerY : α
  lastTime : α
  running : Bool
  paused : Bool

/-- The constant `BASE_GRAV`. -/
def BASE_GRAV : α := 900
/-- The constant `DRAG`. -/
def DRAG : α := 0.03
/-- The constant `MIN_SPEED`. -/
def MIN_SPEED : α := 260
/-- The constant `MAX_SPEED`. -/
def MAX_SPEED : α := 1050
/-- The constant `MAX_CHARGE`. -/
def MAX_CHARGE : α := 1.6

/-- `recomputeLayout()`. -/
def recomputeLayout (s : State α) : State α :=
  let groundY := jsFloor (s.H * 0.82)
  { s with groundY := groundY,
           archerX := jsFloor (s.W * 0.12),
           archerY := groundY - jsFloor (s.H * 0.05),
           arrowLen := jsFloor (min s.W s.H * 0.07),
           gravity := BASE_GRAV * min (s.W / 960) (s.H / 640) }

/-- `resizeCanvas()`: the canvas and its context belong to the display; the
globals `W` and `H` take the window size and the layout is recomputed. -/
def resizeCanvas (s : State α) : State α :=
  recomputeLayout { s with W := s.innerWidth, H := s.innerHeight }

/-- `Arrow.tip()`; `arrowLen` is the global of that name. -/
def Arrow.tip (M : MathOps α) (arrowLen : α) (a : Arrow α) : α × α :=
  (a.x + M.cos a.angle * arrowLen / 2, a.y + M.sin a.angle * arrowLen / 2)

/-- `Arrow.update(dt)`; `tgt` is the target that `stuckTo` refers to when it is
not `null`, `gravity` and `arrowLen` are the globals. -/
def Arrow.update (M : MathOps α) (gravity arrowLen : α) (tgt : Target α) (dt : α)
    (a : Arrow α) : Arrow α :=
  if a.stuck then
    if a.stuckTo then
      let tipx := tgt.x + a.localX
      let tipy := tgt.y + a.localY
      { a with x := tipx - M.cos a.angle * arrowLen / 2,
               y := tipy - M.sin a.angle * arrowLen / 2 }
    else a
  else
    let vy1 := a.vy + gravity * dt
    let vx2 := a.vx - a.vx * DRAG * dt
    let vy2 := vy1 - vy1 * DRAG * dt
    { a with vx := vx2, vy := vy2, x := a.x + vx2 * dt, y := a.y + vy2 * dt,
             angle := M.atan2 vy2 vx2 }

/-- `Arrow.stickTo(target, tipx, tipy)`. -/
def Arrow.stickTo (M : MathOps α) (arrowLen : α) (tgt : Target α) (tipx tipy : α)
    (a : Arrow α) : Arrow α :=
  { a with stuck := true, stuckTo := true,
           localX := tipx - tgt.x, localY := tipy - tgt.y,
           x := tipx - M.cos a.angle * arrowLen / 2,
           y := tipy - M.sin a.angle * arrowLen / 2,
           vx := 0, vy := 0 }

/-- `new Arrow(x, y, vx, vy, angle)`. -/
def Arrow.new (x y vx vy angle : α) : Arrow α :=
  { x := x, y := y, vx := vx, vy := vy, angle := angle,
    stuck := false, stuckTo := false, localX := 0, localY := 0 }

/-- `Target.update(dt)`, with the state for the globals `W`, `groundY` and the
random stream. -/
def Target.update (rnd : ℕ → α) (dt : α) (t : Target α) (s : State α) : Target α × State α :=
  let t1 := { t with x := t.x + t.vx * dt, wobble := t.wobble * 0.94 }
  if t1.x < - t1.radius - 40 then
    ({ t1 with x := s.W + t1.radius + 40,
               y := 120 + rnd s.randomCalls * max 1 (s.groundY - 200) },
     { s with randomCalls := s.randomCalls + 1 })
  else (t1, s)

/-- `Target.wobbleNow()`. -/
def Target.wobbleNow (rnd : ℕ → α) (t : Target α) (s : State α) : Target α × State α :=
  ({ t with wobble := 8 + rnd s.randomCalls * 18 }, { s with randomCalls := s.randomCalls + 1 })

/-- `updateHUD()`. -/
def updateHUD (s : State α) : State α :=
  { s with hud := { score := s.score, high := s.highScore, arrows := s.arrowsLeft,
                    time := max 0 ⌈s.timeLeft⌉ } }

/-- `loadHighScore()`. -/
def loadHighScore (s : State α) : State α :=
  match s.storage.getItem with
  | none => updateHUD { s with highScore := .int 0 }
  | some none => updateHUD s
  | some (some v) => if v = "" then updateHUD s else updateHUD { s with highScore := parseInt v }

/-- `saveHighScore()`. -/
def saveHighScore (s : State α) : State α :=
  { s with storage := s.storage.setItem (jsString s.highScore) }

/-- `isOverUI(x, y)`. -/
def isOverUI (s : State α) (x _y : α) : Bool :=
  decide (x > s.innerWidth - 260)

/-- `clamp(a)`. -/
def clamp (M : MathOps α) (a : α) : α :=
  let min := - M.PI / 3
  let max := M.PI / 3
  Max.max min (Min.min max a)

/-- `startCharge()`; `now` is the value of `performance.now()`. -/
def startCharge (now : α) (s : State α) : State α :=
  if s.arrowsLeft ≤ 0 then s
  else { s with charging := true, chargeStart := now }

/-- The launch speed of `releaseFire` as a function of the hold duration in
seconds, `(performance.now() - chargeStart) / 1000`. -/
def launchSpeed (M : MathOps α) (h : α) : α :=
  let held := min h MAX_CHARGE
  let t := held / MAX_CHARGE
  let eased := M.sin (t * M.PI * 0.5)
  MIN_SPEED + eased * (MAX_SPEED - MIN_SPEED)

/-- `releaseFire(mx, my)`; `now` is the value of `performance.now()`. -/
def releaseFire (M : MathOps α) (now mx my : α) (s : State α) : State α :=
  if !s.charging then s
  else
    let speed := launchSpeed M ((now - s.chargeStart) / 1000)
    let angle := clamp M (M.atan2 (my - s.archerY) (mx - s.archerX))
    let vx := M.cos angle * speed
    let vy := M.sin angle * speed
    let startx := s.archerX + M.cos angle * (s.arrowLen / 2 + 10)
    let starty := s.archerY + M.sin angle * (s.arrowLen / 2 + 10)
    updateHUD { s with charging := false,
                       arrows := s.arrows ++ [Arrow.new startx starty vx vy angle],
                       arrowsLeft := max 0 (s.arrowsLeft - 1) }

/-- `applyDifficulty(which)`. -/
def applyDifficulty (which : String) (s : State α) : State α :=
  match s.target with
  | none => s
  | some t =>
    if which = "Easy" then
      updateHUD
        { s with arrowsLeft := 20, timeLeft := 80,
                 target := some (Target.setup
                   { t with radius := jsFloor (min s.W s.H * 0.12), vx := -120 }) }
    else if which = "Hard" then
      updateHUD
        { s with arrowsLeft := 10, timeLeft := 45,
                 target := some (Target.setup
                   { t with radius := jsFloor (min s.W s.H * 0.07), vx := -260 }) }
    else
      updateHUD
        { s with arrowsLeft := 14, timeLeft := 60,
                 target := some (Target.setup
                   { t with radius := jsFloor (min s.W s.H * 0.09), vx := -180 }) }

/-- `startGame()`; `now` is the value of `performance.now()`. -/
def startGame (now : α) (s : State α) : State α :=
  let s1 := { s with score := 0,
                     timeLeft := if s.diffSel = "Easy" then 80 else if s.diffSel = "Hard" then 45 else 60,
                     arrowsLeft := if s.diffSel = "Easy" then 20 else if s.diffSel = "Hard" then 10 else 14,
                     arrows := [], particles := [], powerups := [], popups := [] }
  let s2 := applyDifficulty s1.diffSel s1
  updateHUD { s2 with running := true, paused := false, lastTime := now }

/-- `restartGame()`. -/
def restartGame (now : α) (s : State α) : State α := startGame now s

/-- `togglePause()`. -/
def togglePause (s : State α) : State α :=
  if !s.running then s else { s with paused := !s.paused }

/-- `spawnParticles(x, y, baseColor, count)`: the loop body runs `count` times,
each run drawing three random numbers. -/
def spawnParticles (M : MathOps α) (rnd : ℕ → α) (x y : α) (baseColor : String) :
    ℕ → State α → State α
  | 0, s => s
  | n + 1, s =>
    let ang := rnd s.randomCalls * M.PI * 2
    let sp := 60 + rnd (s.randomCalls + 1) * 220
    let vx := M.cos ang * sp
    let vy := M.sin ang * sp * 0.6
    let life := 0.6 + rnd (s.randomCalls + 2) * 0.8
    spawnParticles M rnd x y baseColor n
      { s with particles := s.particles ++
                 [{ x := x, y := y, vx := vx, vy := vy, color := baseColor,
                    life := life, init := life }],
               randomCalls := s.randomCalls + 3 }

/-- The body of `if (timeLeft <= 0)` in `drawFrame`: the round ends, the high
score is raised to the score and saved when the score exceeds it, and the
alert is shown. -/
def timeUp (s : State α) : State α :=
  let s1 := { s with running := false }
  let s2 := if s1.highScore.ltInt s1.score then
              saveHighScore { s1 with highScore := .int s1.score }
            else s1
  { s2 with alerts := s2.alerts ++ [(s2.score, s2.highScore)] }

/-- The `random powerups` block of `drawFrame`. -/
def spawnPowerup (rnd : ℕ → α) (s : State α) : State α :=
  let s1 := { s with randomCalls := s.randomCalls + 1 }
  if rnd s.randomCalls < 0.003 then
    let px := s1.W + 40
    let py := 120 + rnd s1.randomCalls * max 1 (s1.groundY - 200)
    { s1 with powerups := s1.powerups ++
                [{ x := px, y := py, vx := -100, bob := rnd (s1.randomCalls + 1) * 2 }],
              randomCalls := s1.randomCalls + 2 }
  else s1

/-- The `update powerups` loop of `drawFrame`.  The loop runs from the last
index down and `splice(i, 1)` removes the element just visited, so it is a
right fold that keeps the surviving elements in order. -/
def updatePowerups (dt : α) (s : State α) : State α :=
  let kept := s.powerups.foldr
    (fun p acc =>
      let p1 := { p with x := p.x + p.vx * dt, bob := p.bob + dt }
      if p1.x < -100 then acc else p1 :: acc) []
  { s with powerups := kept }

/-- The `powerup collisions` loop of `drawFrame` for one arrow tip: a right
fold over `powerups` (last index first); the accumulated state holds in
`powerups` the elements already visited and kept. -/
def collectPowerups (M : MathOps α) (rnd : ℕ → α) (tip : α × α) (s : State α) : State α :=
  s.powerups.foldr
    (fun pu st =>
      if M.hypot (tip.1 - pu.x) (tip.2 - pu.y) < max 18 (st.W * 0.03) then
        let st1 := { st with arrowsLeft := st.arrowsLeft + 2 }
        let st2 := spawnParticles M rnd pu.x pu.y "#0ff" 12 st1
        { st2 with popups := st2.popups ++
                     [{ x := pu.x, y := pu.y, text := "+2 Arrows", life := 0.9 }] }
      else { st with powerups := pu :: st.powerups })
    { s with powerups := [] }

/-- The `target collision` statement of `drawFrame` for the arrow `a` with tip
`tip`: the target and the state afterwards, and the arrow as it stays in
`arrows` (`none`: removed by `splice`). -/
def targetCollision (M : MathOps α) (rnd : ℕ → α) (a : Arrow α) (tip : α × α)
    (acc : Target α × State α) : (Target α × State α) × Option (Arrow α) :=
  if acc.1.hit M tip.1 tip.2 then
    let pts := acc.1.pointsFor M tip.1 tip.2
    let s1 := { acc.2 with score := acc.2.score + pts }
    let s2 := spawnParticles M rnd tip.1 tip.2 (if pts ≥ 100 then "#ffd54d" else "#ff9e80") 18 s1
    let popup : Popup α := { x := tip.1, y := tip.2, text := commentaryFor pts, life := 1.1 }
    let s3 := { s2 with popups := s2.popups ++ [popup] }
    let r4 := acc.1.wobbleNow rnd s3
    let a1 := a.stickTo M r4.2.arrowLen r4.1 tip.1 tip.2
    let bullseye : Popup α := { x := tip.1, y := tip.2 - 30, text := "BULLSEYE!", life := 1.4 }
    let s5 := if pts ≥ 100 then { r4.2 with popups := r4.2.popups ++ [bullseye] } else r4.2
    ((r4.1, updateHUD s5), some a1)
  else if a.x < -400 ∨ a.x > acc.2.W + 400 ∨ a.y > acc.2.H + 400 ∨ a.y < -400 then
    (acc, none)
  else (acc, some a)

/-- The body of the `update arrows` loop of `drawFrame` for one arrow.  The
accumulated state holds in `arrows` the arrows already visited and kept. -/
def arrowStep (M : MathOps α) (rnd : ℕ → α) (dt : α) (a : Arrow α)
    (acc : Target α × State α) : Target α × State α :=
  if !a.stuck then
    let a1 := a.update M acc.2.gravity acc.2.arrowLen acc.1 dt
    let tip := a1.tip M acc.2.arrowLen
    let s1 := collectPowerups M rnd tip acc.2
    let r := targetCollision M rnd a1 tip (acc.1, s1)
    match r.2 with
    | some a2 => (r.1.1, { r.1.2 with arrows := a2 :: r.1.2.arrows })
    | none => r.1
  else
    let a1 := a.update M acc.2.gravity acc.2.arrowLen acc.1 dt
    (acc.1, { acc.2 with arrows := a1 :: acc.2.arrows })

/-- The `update arrows` loop of `drawFrame`: from the last index down. -/
def updateArrows (M : MathOps α) (rnd : ℕ → α) (dt : α) (acc : Target α × State α) :
    Target α × State α :=
  acc.2.arrows.foldr (arrowStep M rnd dt) (acc.1, { acc.2 with arrows := [] })

/-- The `update particles` loop of `drawFrame`. -/
def updateParticles (dt : α) (s : State α) : State α :=
  let kept := s.particles.foldr
    (fun p acc =>
      let p1 := p.update s.gravity dt
      if p1.life ≤ 0 then acc else p1 :: acc) []
  { s with particles := kept }

/-- The `update popups` loop of `drawFrame`. -/
def updatePopups (dt : α) (s : State α) : State α :=
  let kept := s.popups.foldr
    (fun p acc =>
      let p1 := p.update dt
      if p1.life ≤ 0 then acc else p1 :: acc) []
  { s with popups := kept }

/-- The time step of `drawFrame`: `(now - lastTime) / 1000` cut at `0.05`. -/
def frameDt (now : α) (s : State α) : α :=
  let dt := (now - s.lastTime) / 1000
  if dt > 0.05 then 0.05 else dt

/-- The body of `if (running && !paused)` in `drawFrame`, for the target `t`
that the global holds; the updated target is stored back at the end. -/
def frameUpdate (M : MathOps α) (rnd : ℕ → α) (dt : α) (t : Target α) (s : State α) :
    State α :=
  let s1 := { s with timeLeft := s.timeLeft - dt }
  let s2 := if s1.timeLeft ≤ 0 then timeUp s1 else s1
  let r3 := t.update rnd dt s2
  let s4 := spawnPowerup rnd r3.2
  let s5 := updatePowerups dt s4
  let r6 := updateArrows M rnd dt (r3.1, s5)
  let s7 := updateParticles dt r6.2
  let s8 := updatePopups dt s7
  { s8 with target := some r6.1 }

/-- `drawFrame()`; `now` is the value of `performance.now()`.  Rendering and
the request for the next frame leave the state alone; with the global `target`
undefined the frame throws a `TypeError` (`target.update`, `target.draw`),
which is the result `none`. -/
def drawFrame (M : MathOps α) (rnd : ℕ → α) (now : α) (s : State α) : Option (State α) :=
  let dt := frameDt now s
  let s0 := { s with lastTime := now }
  match s0.target with
  | none => none
  | some t =>
    if s0.running && !s0.paused then some (frameUpdate M rnd dt t s0)
    else some s0

/-- The `pointerdown` listener. -/
def onPointerDown (M : MathOps α) (now cx cy : α) (s : State α) : State α :=
  if !s.running then s
  else if isOverUI s cx cy then s
  else
    let s1 := { s with pointerActive := true, pointerX := cx, pointerY := cy }
    let a := clamp M (M.atan2 (s1.pointerY - s1.archerY) (s1.pointerX - s1.archerX))
    startCharge now { s1 with aimAngle := a }

/-- The `pointerup` listener. -/
def onPointerUp (M : MathOps α) (now cx cy : α) (s : State α) : State α :=
  if !s.running then s
  else if !s.pointerActive then s
  else releaseFire M now cx cy { s with pointerActive := false }

/-- The `pointermove` listener. -/
def onPointerMove (M : MathOps α) (cx cy : α) (s : State α) : State α :=
  let s1 := { s with pointerX := cx, pointerY := cy }
  let a := clamp M (M.atan2 (s1.pointerY - s1.archerY) (s1.pointerX - s1.archerX))
  { s1 with aimAngle := a }

/-- The `change` listener of the difficulty selector, after the selector took
the value `v`. -/
def onDifficultyChange (v : String) (s : State α) : State α :=
  let s1 := { s with diffSel := v }
  applyDifficulty s1.diffSel s1

/-- The `keydown` listener. -/
def onKeyDown (now : α) (key : String) (s : State α) : State α :=
  let s1 := if key = "p" ∨ key = "P" then togglePause s else s
  if key = "r" ∨ key = "R" then restartGame now s1 else s1

/-- The `resize` listener, after the window took the size `w` by `h`. -/
def onResize (w h : α) (s : State α) : State α :=
  resizeCanvas { s with innerWidth := w, innerHeight := h }

/-- What the host can deliver to the script once it is loaded; `now` is the
value `performance.now()` has while the listener runs. -/
inductive Event (α : Type) where
  | pointerDown (now cx cy : α)
  | pointerUp (now cx cy : α)
  | pointerMove (cx cy : α)
  | clickStart (now : α)
  | clickPause
  | clickRestart (now : α)
  | difficultyChange (v : String)
  | keyDown (now : α) (key : String)
  | resize (w h : α)
  | frame (now : α)

/-- One event: the listener registered for it, or `drawFrame` for an animation
frame. -/
def step (M : MathOps α) (rnd : ℕ → α) (s : State α) : Event α → Option (State α)
  | .pointerDown now cx cy => some (onPointerDown M now cx cy s)
  | .pointerUp now cx cy => some (onPointerUp M now cx cy s)
  | .pointerMove cx cy => some (onPointerMove M cx cy s)
  | .clickStart now => some (startGame now s)
  | .clickPause => some (togglePause s)
  | .clickRestart now => some (restartGame now s)
  | .difficultyChange v => some (onDifficultyChange v s)
  | .keyDown now key => some (onKeyDown now key s)
  | .resize w h => some (onResize w h s)
  | .frame now => drawFrame M rnd now s

/-- A sequence of events, one after the other. -/
def run (M : MathOps α) (rnd : ℕ → α) (s : State α) : List (Event α) → Option (State α)
  | [] => some s
  | e :: es => (step M rnd s e).bind (fun s1 => run M rnd s1 es)

/-- What the script finds when it is loaded: the window size, the selected
difficulty, local storage, the HUD text of the page, and the values of
`performance.now()` when `lastTime` is declared (`t0`) and at the first
`drawFrame` (`t1`). -/
structure Boot (α : Type) where
  innerWidth : α
  innerHeight : α
  difficulty : String
  storage : Storage
  hud : HUD
  t0 : α
  t1 : α

/-- The globals as their declarations leave them.  The layout globals declared
without a value (`groundY`, `archerX`, `archerY`, `gravity`) are given `0`:
`resizeCanvas` assigns them before anything reads them. -/
def initialGlobals (M : MathOps α) (b : Boot α) : State α :=
  { innerWidth := b.innerWidth, innerHeight := b.innerHeight, diffSel := b.difficulty,
    storage := b.storage, hud := b.hud, randomCalls := 0, alerts := [],
    W := b.innerWidth, H := b.innerHeight,
    groundY := 0, archerX := 0, archerY := 0,
    arrowLen := max 40 (min b.innerWidth b.innerHeight * 0.07),
    gravity := 0,
    arrows := [], particles := [], powerups := [], popups := [],
    target := none,
    score := 0, arrowsLeft := 12, timeLeft := 60, highScore := .int 0,
    charging := false, chargeStart := 0, aimAngle := - M.PI / 8,
    pointerActive := false, pointerX := 0, pointerY := 0,
    lastTime := b.t0, running := false, paused := false }

/-- The script from its first line to the end of `init()`: the declarations,
`resizeCanvas()`, then `init()`, whose last statement is the first
`drawFrame()`. -/
def init (M : MathOps α) (rnd : ℕ → α) (b : Boot α) : Option (State α) :=
  let s1 := resizeCanvas (resizeCanvas (initialGlobals M b))
  let s2 := loadHighScore s1
  let r := jsFloor (min s2.W s2.H * 0.09)
  let s3 := { s2 with target := some (Target.new (s2.W - jsFloor (s2.W * 0.18))
                                        (s2.groundY - jsFloor (s2.H * 0.18)) r (-160)) }
  let s4 := applyDifficulty s3.diffSel s3
  drawFrame M rnd b.t1 s4

/-- A round in progress on a 960 by 640 window at difficulty Normal: 9 arrows
and 31.5 seconds left, score 130, high score 100, the target with the Normal
radius `floor(640 * 0.09) = 57` and speed `-180`, nothing in flight. -/
def midRound (α : Type) [LinearOrderedField α] [FloorRing α] : State α :=
  { innerWidth := 960, innerHeight := 640, diffSel := "Normal",
    storage := { available := true, item := some "100", setItemCalls := [] },
    hud := { score := 130, high := .int 100, arrows := 9, time := 32 },
    randomCalls := 0, alerts := [],
    W := 960, H := 640, groundY := 524, archerX := 115, archerY := 492, arrowLen := 44,
    gravity := 900,
    arrows := [], particles := [], powerups := [], popups := [],
    target := some { x := 500, y := 300, radius := 57, vx := -180, rings := [57, 41, 27, 15],
                     points := [10, 30, 60, 100], wobble := 0 },
    score := 130, arrowsLeft := 9, timeLeft := 31.5, highScore := .int 100,
    charging := false, chargeStart := 0, aimAngle := 0,
    pointerActive := false, pointerX := 0, pointerY := 0,
    lastTime := 28500, running := true, paused := false }

/-- The part of the state that the update phase of a frame leaves alone once
the timer has been handled: the flags, the timer, the high score, the store,
the aim and the selector are the same and `arrowsLeft` has not gone down. -/
def Keeps (s s1 : State α) : Prop :=
  s1.charging = s.charging ∧ s1.aimAngle = s.aimAngle ∧ s1.highScore = s.highScore ∧
  s1.storage = s.storage ∧ s1.running = s.running ∧ s1.paused = s.paused ∧
  s1.timeLeft = s.timeLeft ∧ s1.lastTime = s.lastTime ∧ s1.alerts = s.alerts ∧
  s1.diffSel = s.diffSel ∧ s1.pointerActive = s.pointerActive ∧ s.arrowsLeft ≤ s1.arrowsLeft

/-- The invariant of the input handling: the target exists, `arrowsLeft` is
not negative, a charge is held only with an arrow left, and the aim is within
the arc `[-PI/3, PI/3]` (an interval only when the host `PI` is not
negative). -/
def Inv (M : MathOps α) (s : State α) : Prop :=
  s.target.isSome = true ∧ 0 ≤ s.arrowsLeft ∧ (s.charging = true → 1 ≤ s.arrowsLeft) ∧
  (0 ≤ M.PI → - M.PI / 3 ≤ s.aimAngle ∧ s.aimAngle ≤ M.PI / 3)

/-- The states the script can be in between two events: the state `init`
leaves, and every state that an event leads to from such a state. -/
inductive Reachable (M : MathOps α) (rnd : ℕ → α) : State α → Prop where
  | boot (b : Boot α) (s : State α) : init M rnd b = some s → Reachable M rnd s
  | next (s s1 : State α) (e : Event α) :
      Reachable M rnd s → step M rnd s e = some s1 → Reachable M rnd s1

/-- A page load on a 960 by 640 window with the selector on Normal and a
stored high score of 100. -/
def sampleBoot (α : Type) [LinearOrderedField α] [FloorRing α] : Boot α :=
  { innerWidth := 960, innerHeight := 640, difficulty := "Normal",
    storage := { available := true, item := some "100", setItemCalls := [] },
    hud := { score := 0, high := .int 0, arrows := 12, time := 60 },
    t0 := 0, t1 := 5 }

/-- The round `midRound` (score 130, high score 100) with 0.01 s left and one
arrow in flight just left of the target: at (480, 300), moving right at
100 px/s. -/
def lastShot (α : Type) [LinearOrderedField α] [FloorRing α] : State α :=
  { midRound α with timeLeft := 0.01, arrows := [Arrow.new 480 300 100 0 0] }

end Game

end Archery

namespace Archery

section Proofs

variable {α : Type} [LinearOrderedField α] [FloorRing α]

/-- Evaluating `Math.floor`: `z ≤ x < z + 1` gives `floor x = z`. -/
theorem jsFloor_eq (x : α) (z : ℤ) (h1 : (z : α) ≤ x) (h2 : x < (z : α) + 1) :
    jsFloor x = (z : α) := by
  unfold jsFloor
  exact_mod_cast Int.floor_eq_iff.mpr ⟨h1, h2⟩

/-- The rings of a target set up from a positive radius: the innermost ring is
not negative and each of the three inner rings is smaller than the radius. -/
theorem setup_rings (t : Target α) (hr : 0 < t.radius) :
    t.setup.rings = [t.radius, jsFloor (t.radius * 0.72), jsFloor (t.radius * 0.48),
      jsFloor (t.radius * 0.28)] ∧
    (0 : α) ≤ jsFloor (t.radius * 0.28) ∧
    jsFloor (t.radius * 0.72) < t.radius ∧ jsFloor (t.radius * 0.48) < t.radius ∧
    jsFloor (t.radius * 0.28) < t.radius := by
  refine ⟨rfl, ?_, ?_, ?_, ?_⟩
  · have h : (0 : α) ≤ t.radius * 0.28 := by norm_num; exact hr.le
    have := Int.floor_nonneg.mpr h
    unfold jsFloor
    exact_mod_cast this
  · have := Int.floor_le (t.radius * 0.72)
    unfold jsFloor
    have h2 : t.radius * 0.72 < t.radius := by norm_num; linarith
    linarith
  · have := Int.floor_le (t.radius * 0.48)
    unfold jsFloor
    have h2 : t.radius * 0.48 < t.radius := by norm_num; linarith
    linarith
  · have := Int.floor_le (t.radius * 0.28)
    unfold jsFloor
    have h2 : t.radius * 0.28 < t.radius := by norm_num; linarith
    linarith

/-- The points of a set-up target as a function of the distance `d` alone. -/
theorem pointsFor_setup (t : Target α) (hp : t.points = [10, 30, 60, 100]) (d : α) :
    Target.pointsForFrom t.setup d t.setup.rings.length =
      if d ≤ jsFloor (t.radius * 0.28) then 100
      else if d ≤ jsFloor (t.radius * 0.48) then 60
      else if d ≤ jsFloor (t.radius * 0.72) then 30
      else if d ≤ t.radius then 10 else 0 := by
  simp [Target.setup, Target.pointsForFrom, hp]

/-- C1: for a target whose rings `setup()` derived from a radius `r > 0` (and
whose point table is the constructor's), a tip at the centre gets 100 points,
a tip at distance exactly `r` gets 10, and for a tip further away than `r`
`hit` is false, `pointsFor` is 0, and the target-collision statement of the
frame step leaves the score as it was and the arrow, if it stays, not stuck. -/
theorem target_scoring_tiers (M : MathOps α) (t : Target α) (hr : 0 < t.radius)
    (hp : t.points = [10, 30, 60, 100]) (h0 : M.hypot 0 0 = 0) :
    t.setup.pointsFor M t.setup.x t.setup.y = 100 ∧
    (∀ px py, M.hypot (px - t.setup.x) (py - t.setup.y) = t.setup.radius →
      t.setup.hit M px py = true ∧ t.setup.pointsFor M px py = 10) ∧
    (∀ px py, t.setup.radius < M.hypot (px - t.setup.x) (py - t.setup.y) →
      t.setup.hit M px py = false ∧ t.setup.pointsFor M px py = 0 ∧
      ∀ (rnd : ℕ → α) (a : Arrow α) (s : State α), a.stuck = false →
        ((targetCollision M rnd a (px, py) (t.setup, s)).1.2.score = s.score ∧
         ∀ b, (targetCollision M rnd a (px, py) (t.setup, s)).2 = some b → b.stuck = false)) := by
  obtain ⟨_, h28, h72, h48, h28r⟩ := setup_rings t hr
  have hrad : t.setup.radius = t.radius := rfl
  refine ⟨?_, ?_, ?_⟩
  · unfold Target.pointsFor
    rw [pointsFor_setup t hp, sub_self, sub_self, h0, if_pos h28]
  · intro px py hd
    refine ⟨?_, ?_⟩
    · simp [Target.hit, hd]
    · unfold Target.pointsFor
      rw [pointsFor_setup t hp, hd, hrad, if_neg (not_le.mpr h28r), if_neg (not_le.mpr h48),
        if_neg (not_le.mpr h72), if_pos le_rfl]
  · intro px py hd
    have hhit : t.setup.hit M px py = false := by simp [Target.hit, hd]
    rw [hrad] at hd
    refine ⟨hhit, ?_, ?_⟩
    · unfold Target.pointsFor
      rw [pointsFor_setup t hp, if_neg (not_le.mpr (h28r.trans hd)),
        if_neg (not_le.mpr (h48.trans hd)), if_neg (not_le.mpr (h72.trans hd)),
        if_neg (not_le.mpr hd)]
    · intro rnd a s ha
      unfold targetCollision
      simp only [hhit, Bool.false_eq_true, if_false]
      split
      · exact ⟨rfl, fun b hb => by cases hb⟩
      · refine ⟨rfl, fun b hb => ?_⟩
        have : a = b := by simpa using hb
        rw [← this]; exact ha

/-- C1 at a concrete target over the reals, with the Euclidean distance for
`Math.hypot`: radius 50, centre (300, 200). -/
theorem target_scoring_tiers_witness :
    (0 : ℝ) < 50 ∧
    (Target.new (300 : ℝ) 200 50 (-180)).setup.pointsFor
      ⟨Real.pi, Real.sin, Real.cos, fun y x => Complex.arg ⟨x, y⟩,
        fun x y => Real.sqrt (x ^ 2 + y ^ 2)⟩ 300 200 = 100 :=
  ⟨by norm_num,
   (target_scoring_tiers
      ⟨Real.pi, Real.sin, Real.cos, fun y x => Complex.arg ⟨x, y⟩,
        fun x y => Real.sqrt (x ^ 2 + y ^ 2)⟩
      (Target.new (300 : ℝ) 200 50 (-180)) (by norm_num [Target.new, Target.setup]) rfl
      (by simp)).1⟩

/-- What `applyDifficulty` does when the target exists. -/
theorem applyDifficulty_some (which : String) (s : State α) (t : Target α)
    (ht : s.target = some t) :
    applyDifficulty which s =
      updateHUD { s with
        arrowsLeft := if which = "Easy" then 20 else if which = "Hard" then 10 else 14,
        timeLeft := if which = "Easy" then 80 else if which = "Hard" then 45 else 60,
        target := some (Target.setup { t with
          radius := jsFloor (min s.W s.H *
            (if which = "Easy" then 0.12 else if which = "Hard" then 0.07 else 0.09)),
          vx := if which = "Easy" then -120 else if which = "Hard" then -260 else -180 }) } := by
  unfold applyDifficulty
  rw [ht]
  by_cases h1 : which = "Easy"
  · simp [h1]
  · by_cases h2 : which = "Hard"
    · simp [h2]
    · simp [h1, h2]

/-- C2, refuted as stated: in the round in progress `midRound` (running, 9
arrows, 31.5 s, Normal target of radius 57 and speed -180) the change of the
selector to Easy sets 20 arrows, 80 s, radius 76 and speed -120 at once. -/
theorem difficulty_change_mid_round_counterexample :
    (midRound ℚ).running = true ∧
    (midRound ℚ).arrowsLeft = 9 ∧ (onDifficultyChange "Easy" (midRound ℚ)).arrowsLeft = 20 ∧
    (midRound ℚ).timeLeft = 31.5 ∧ (onDifficultyChange "Easy" (midRound ℚ)).timeLeft = 80 ∧
    (midRound ℚ).target.map (fun t => (t.radius, t.vx, t.rings)) =
      some (57, -180, [57, 41, 27, 15]) ∧
    (onDifficultyChange "Easy" (midRound ℚ)).target.map (fun t => (t.radius, t.vx, t.rings)) =
      some (76, -120, [76, 54, 36, 21]) := by
  refine ⟨rfl, rfl, ?_, rfl, ?_, rfl, ?_⟩
  · simp [onDifficultyChange, midRound, applyDifficulty, updateHUD]
  · simp [onDifficultyChange, midRound, applyDifficulty, updateHUD]
  · have h1 : jsFloor ((640 : ℚ) * 0.12) = 76 := jsFloor_eq _ 76 (by norm_num) (by norm_num)
    have h2 : jsFloor ((76 : ℚ) * 0.72) = 54 := jsFloor_eq _ 54 (by norm_num) (by norm_num)
    have h3 : jsFloor ((76 : ℚ) * 0.48) = 36 := jsFloor_eq _ 36 (by norm_num) (by norm_num)
    have h4 : jsFloor ((76 : ℚ) * 0.28) = 21 := jsFloor_eq _ 21 (by norm_num) (by norm_num)
    have hmin : min (960 : ℚ) 640 = 640 := by norm_num
    simp [onDifficultyChange, midRound, applyDifficulty, updateHUD, Target.setup, hmin, h1, h2,
      h3, h4]

/-- C2 as amended: whenever the target exists, running or not, the change
listener applies the newly selected preset at once: arrows, time and target
speed are (20, 80, -120) for Easy, (10, 45, -260) for Hard and (14, 60, -180)
for any other value, the radius is `floor(min(W, H) * k)` with `k` 0.12, 0.07
or 0.09 and the rings are derived again from it; score, high score and the
running and paused flags stay as they were. -/
theorem difficulty_change_immediate (s : State α) (t : Target α) (v : String)
    (ht : s.target = some t) :
    (onDifficultyChange v s).arrowsLeft =
      (if v = "Easy" then 20 else if v = "Hard" then 10 else 14) ∧
    (onDifficultyChange v s).timeLeft =
      (if v = "Easy" then 80 else if v = "Hard" then 45 else 60) ∧
    (onDifficultyChange v s).target = some (Target.setup { t with
      radius := jsFloor (min s.W s.H *
        (if v = "Easy" then 0.12 else if v = "Hard" then 0.07 else 0.09)),
      vx := if v = "Easy" then -120 else if v = "Hard" then -260 else -180 }) ∧
    (onDifficultyChange v s).score = s.score ∧
    (onDifficultyChange v s).highScore = s.highScore ∧
    (onDifficultyChange v s).running = s.running ∧
    (onDifficultyChange v s).paused = s.paused := by
  have h := applyDifficulty_some v { s with diffSel := v } t ht
  simp only [onDifficultyChange]
  rw [h]
  simp [updateHUD]

/-- C2 as amended, at the round in progress `midRound` and the value Hard. -/
theorem difficulty_change_immediate_witness :
    (midRound ℚ).running = true ∧ (onDifficultyChange "Hard" (midRound ℚ)).arrowsLeft = 10 ∧
    (onDifficultyChange "Hard" (midRound ℚ)).timeLeft = 45 :=
  ⟨rfl, by simpa using (difficulty_change_immediate (midRound ℚ) _ "Hard" rfl).1,
   by simpa using (difficulty_change_immediate (midRound ℚ) _ "Hard" rfl).2.1⟩

/-- C7: after `startGame` the score is 0, arrows and time are those of the
selected difficulty ((20, 80) Easy, (10, 45) Hard, (14, 60) otherwise), the
four collections are empty, the round is running and not paused; and the
target, when it exists, has the speed of the difficulty (-120, -260, -180),
the radius `floor(min(W, H) * k)` with `k` 0.12, 0.07 or 0.09, and rings
derived again from that radius. -/
theorem startGame_resets (now : α) (s : State α) :
    (startGame now s).score = 0 ∧
    (startGame now s).arrowsLeft =
      (if s.diffSel = "Easy" then 20 else if s.diffSel = "Hard" then 10 else 14) ∧
    (startGame now s).timeLeft =
      (if s.diffSel = "Easy" then 80 else if s.diffSel = "Hard" then 45 else 60) ∧
    (startGame now s).arrows = [] ∧ (startGame now s).particles = [] ∧
    (startGame now s).powerups = [] ∧ (startGame now s).popups = [] ∧
    (startGame now s).running = true ∧ (startGame now s).paused = false ∧
    ∀ t, s.target = some t →
      (startGame now s).target = some (Target.setup { t with
        radius := jsFloor (min s.W s.H *
          (if s.diffSel = "Easy" then 0.12 else if s.diffSel = "Hard" then 0.07 else 0.09)),
        vx := if s.diffSel = "Easy" then -120 else if s.diffSel = "Hard" then -260 else -180 }) := by
  cases htgt : s.target with
  | none => simp [startGame, applyDifficulty, updateHUD, htgt]
  | some t =>
    have h := applyDifficulty_some s.diffSel
      { s with score := 0,
               timeLeft := if s.diffSel = "Easy" then 80 else if s.diffSel = "Hard" then 45 else 60,
               arrowsLeft := if s.diffSel = "Easy" then 20 else if s.diffSel = "Hard" then 10 else 14,
               arrows := [], particles := [], powerups := [], popups := [] } t htgt
    simp only [startGame]
    rw [h]
    simp [updateHUD]

/-- C7 at the state `midRound` with the selector on Hard: the restarted round
has 10 arrows, 45 s, score 0 and a target of radius `floor(640 * 0.07) = 44`
and speed -260. -/
theorem startGame_resets_witness :
    ({ midRound ℚ with diffSel := "Hard" } : State ℚ).target.isSome = true ∧
    (startGame 0 { midRound ℚ with diffSel := "Hard" }).target.map
      (fun t => (t.radius, t.vx, t.rings)) = some (44, -260, [44, 31, 21, 12]) := by
  refine ⟨rfl, ?_⟩
  have h := (startGame_resets (0 : ℚ) { midRound ℚ with diffSel := "Hard" }).2.2.2.2.2.2.2.2.2
    _ rfl
  have h1 : jsFloor ((640 : ℚ) * 0.07) = 44 := jsFloor_eq _ 44 (by norm_num) (by norm_num)
  have h2 : jsFloor ((44 : ℚ) * 0.72) = 31 := jsFloor_eq _ 31 (by norm_num) (by norm_num)
  have h3 : jsFloor ((44 : ℚ) * 0.48) = 21 := jsFloor_eq _ 21 (by norm_num) (by norm_num)
  have h4 : jsFloor ((44 : ℚ) * 0.28) = 12 := jsFloor_eq _ 12 (by norm_num) (by norm_num)
  have hmin : min (960 : ℚ) 640 = 640 := by norm_num
  rw [h]
  simp [midRound, Target.setup, hmin, h1, h2, h3, h4]

end Proofs

end Archery

namespace Archery

section FrameProofs

set_option linter.unusedSectionVars false

variable {α : Type} [LinearOrderedField α] [FloorRing α]

theorem Keeps.refl (s : State α) : Keeps s s :=
  ⟨rfl, rfl, rfl, rfl, rfl, rfl, rfl, rfl, rfl, rfl, rfl, le_rfl⟩

theorem Keeps.trans {s s1 s2 : State α} (h1 : Keeps s s1) (h2 : Keeps s1 s2) : Keeps s s2 := by
  obtain ⟨a1, a2, a3, a4, a5, a6, a7, a8, a9, a10, a11, a12⟩ := h1
  obtain ⟨b1, b2, b3, b4, b5, b6, b7, b8, b9, b10, b11, b12⟩ := h2
  exact ⟨b1.trans a1, b2.trans a2, b3.trans a3, b4.trans a4, b5.trans a5, b6.trans a6,
    b7.trans a7, b8.trans a8, b9.trans a9, b10.trans a10, b11.trans a11, a12.trans b12⟩

theorem spawnParticles_keeps (M : MathOps α) (rnd : ℕ → α) (x y : α) (c : String) (n : ℕ)
    (s : State α) : Keeps s (spawnParticles M rnd x y c n s) := by
  induction n generalizing s with
  | zero => exact Keeps.refl s
  | succ n ih =>
    unfold spawnParticles
    exact Keeps.trans (Keeps.refl _) (ih _)

theorem foldr_keeps {β : Type} (f : β → State α → State α) (hf : ∀ b st, Keeps st (f b st))
    (l : List β) (s : State α) : Keeps s (l.foldr f s) := by
  induction l with
  | nil => exact Keeps.refl s
  | cons b l ih => exact Keeps.trans ih (hf b _)

theorem collectPowerups_keeps (M : MathOps α) (rnd : ℕ → α) (tip : α × α) (s : State α) :
    Keeps s (collectPowerups M rnd tip s) := by
  unfold collectPowerups
  have h0 : Keeps s { s with powerups := [] } :=
    ⟨rfl, rfl, rfl, rfl, rfl, rfl, rfl, rfl, rfl, rfl, rfl, le_rfl⟩
  refine h0.trans (foldr_keeps _ ?_ _ _)
  intro pu st
  dsimp only
  split
  · have h1 : Keeps st { st with arrowsLeft := st.arrowsLeft + 2 } :=
      ⟨rfl, rfl, rfl, rfl, rfl, rfl, rfl, rfl, rfl, rfl, rfl, by simp⟩
    have h2 := spawnParticles_keeps M rnd pu.x pu.y "#0ff" 12
      { st with arrowsLeft := st.arrowsLeft + 2 }
    exact (h1.trans h2).trans ⟨rfl, rfl, rfl, rfl, rfl, rfl, rfl, rfl, rfl, rfl, rfl, le_rfl⟩
  · exact ⟨rfl, rfl, rfl, rfl, rfl, rfl, rfl, rfl, rfl, rfl, rfl, le_rfl⟩

theorem targetCollision_keeps (M : MathOps α) (rnd : ℕ → α) (a : Arrow α) (tip : α × α)
    (acc : Target α × State α) : Keeps acc.2 (targetCollision M rnd a tip acc).1.2 := by
  have hsp := spawnParticles_keeps M rnd tip.1 tip.2
    (if acc.1.pointsFor M tip.1 tip.2 ≥ 100 then "#ffd54d" else "#ff9e80") 18
    { acc.2 with score := acc.2.score + acc.1.pointsFor M tip.1 tip.2 }
  have h1 : Keeps acc.2 { acc.2 with score := acc.2.score + acc.1.pointsFor M tip.1 tip.2 } :=
    ⟨rfl, rfl, rfl, rfl, rfl, rfl, rfl, rfl, rfl, rfl, rfl, le_rfl⟩
  have h2 := h1.trans hsp
  unfold targetCollision
  split
  · dsimp only
    split
    · exact h2.trans ⟨rfl, rfl, rfl, rfl, rfl, rfl, rfl, rfl, rfl, rfl, rfl, le_rfl⟩
    · exact h2.trans ⟨rfl, rfl, rfl, rfl, rfl, rfl, rfl, rfl, rfl, rfl, rfl, le_rfl⟩
  · split
    · exact Keeps.refl _
    · exact Keeps.refl _

theorem arrowStep_keeps (M : MathOps α) (rnd : ℕ → α) (dt : α) (a : Arrow α)
    (acc : Target α × State α) : Keeps acc.2 (arrowStep M rnd dt a acc).2 := by
  have hc := collectPowerups_keeps M rnd
    ((a.update M acc.2.gravity acc.2.arrowLen acc.1 dt).tip M acc.2.arrowLen) acc.2
  have ht := targetCollision_keeps M rnd (a.update M acc.2.gravity acc.2.arrowLen acc.1 dt)
    ((a.update M acc.2.gravity acc.2.arrowLen acc.1 dt).tip M acc.2.arrowLen)
    (acc.1, collectPowerups M rnd
      ((a.update M acc.2.gravity acc.2.arrowLen acc.1 dt).tip M acc.2.arrowLen) acc.2)
  have h := hc.trans ht
  unfold arrowStep
  split
  · dsimp only
    split
    · exact h.trans ⟨rfl, rfl, rfl, rfl, rfl, rfl, rfl, rfl, rfl, rfl, rfl, le_rfl⟩
    · exact h
  · exact ⟨rfl, rfl, rfl, rfl, rfl, rfl, rfl, rfl, rfl, rfl, rfl, le_rfl⟩

theorem foldr_pair_keeps (f : Arrow α → Target α × State α → Target α × State α)
    (hf : ∀ b acc, Keeps acc.2 (f b acc).2) (l : List (Arrow α)) (acc : Target α × State α) :
    Keeps acc.2 (l.foldr f acc).2 := by
  induction l with
  | nil => exact Keeps.refl _
  | cons b l ih => exact Keeps.trans ih (hf b _)

theorem updateArrows_keeps (M : MathOps α) (rnd : ℕ → α) (dt : α) (acc : Target α × State α) :
    Keeps acc.2 (updateArrows M rnd dt acc).2 := by
  unfold updateArrows
  have h1 : Keeps acc.2 { acc.2 with arrows := [] } :=
    ⟨rfl, rfl, rfl, rfl, rfl, rfl, rfl, rfl, rfl, rfl, rfl, le_rfl⟩
  exact h1.trans (foldr_pair_keeps _ (arrowStep_keeps M rnd dt) _ (acc.1, { acc.2 with arrows := [] }))

theorem targetUpdate_keeps (rnd : ℕ → α) (dt : α) (t : Target α) (s : State α) :
    Keeps s (t.update rnd dt s).2 := by
  unfold Target.update
  dsimp only
  split
  · exact ⟨rfl, rfl, rfl, rfl, rfl, rfl, rfl, rfl, rfl, rfl, rfl, le_rfl⟩
  · exact Keeps.refl s

theorem spawnPowerup_keeps (rnd : ℕ → α) (s : State α) : Keeps s (spawnPowerup rnd s) := by
  unfold spawnPowerup
  dsimp only
  split
  · exact ⟨rfl, rfl, rfl, rfl, rfl, rfl, rfl, rfl, rfl, rfl, rfl, le_rfl⟩
  · exact ⟨rfl, rfl, rfl, rfl, rfl, rfl, rfl, rfl, rfl, rfl, rfl, le_rfl⟩

/-- After the timer has been handled, the rest of the update phase keeps the
flags, the timer, the high score and the store, and does not lower
`arrowsLeft`. -/
theorem frameUpdate_keeps (M : MathOps α) (rnd : ℕ → α) (dt : α) (t : Target α) (s : State α) :
    Keeps (if s.timeLeft - dt ≤ 0 then timeUp { s with timeLeft := s.timeLeft - dt }
           else { s with timeLeft := s.timeLeft - dt })
      (frameUpdate M rnd dt t s) := by
  unfold frameUpdate
  dsimp only
  generalize (if s.timeLeft - dt ≤ 0 then timeUp { s with timeLeft := s.timeLeft - dt }
           else { s with timeLeft := s.timeLeft - dt }) = s2
  have h3 := targetUpdate_keeps rnd dt t s2
  have h4 := spawnPowerup_keeps rnd (t.update rnd dt s2).2
  have h5 : Keeps (spawnPowerup rnd (t.update rnd dt s2).2)
      (updatePowerups dt (spawnPowerup rnd (t.update rnd dt s2).2)) :=
    ⟨rfl, rfl, rfl, rfl, rfl, rfl, rfl, rfl, rfl, rfl, rfl, le_rfl⟩
  have h6 := updateArrows_keeps M rnd dt
    ((t.update rnd dt s2).1, updatePowerups dt (spawnPowerup rnd (t.update rnd dt s2).2))
  exact (h3.trans (h4.trans (h5.trans h6))).trans
    ⟨rfl, rfl, rfl, rfl, rfl, rfl, rfl, rfl, rfl, rfl, rfl, le_rfl⟩

/-- With a target, `drawFrame` returns: the update phase when the round is
running and not paused, otherwise only `lastTime` changes. -/
theorem drawFrame_some (M : MathOps α) (rnd : ℕ → α) (now : α) (s : State α) (t : Target α)
    (ht : s.target = some t) :
    drawFrame M rnd now s = some
      (if s.running = true ∧ s.paused = false then
        frameUpdate M rnd (frameDt now s) t { s with lastTime := now }
       else { s with lastTime := now }) := by
  unfold drawFrame
  simp only [ht]
  by_cases h : s.running = true ∧ s.paused = false
  · simp [h]
  · rw [if_neg h]
    simp only [not_and, Bool.not_eq_false] at h
    cases hr : s.running <;> cases hp : s.paused <;> simp_all

/-- The time step of a frame is the elapsed time in seconds cut at 0.05. -/
theorem frameDt_eq (now : α) (s : State α) :
    frameDt now s = min ((now - s.lastTime) / 1000) 0.05 := by
  unfold frameDt
  dsimp only
  split
  · next h => exact (min_eq_right h.le).symm
  · next h => exact (min_eq_left (not_lt.mp h)).symm

/-- What the end of the round does to the flags, the high score and the
store. -/
theorem timeUp_fields (s : State α) :
    (timeUp s).running = false ∧
    (timeUp s).highScore = (if s.highScore.ltInt s.score then JSNum.int s.score
                            else s.highScore) ∧
    (timeUp s).storage = (if s.highScore.ltInt s.score then s.storage.setItem (toString s.score)
                          else s.storage) ∧
    (timeUp s).timeLeft = s.timeLeft ∧ (timeUp s).arrowsLeft = s.arrowsLeft ∧
    (timeUp s).charging = s.charging ∧ (timeUp s).aimAngle = s.aimAngle ∧
    (timeUp s).target = s.target ∧ (timeUp s).score = s.score := by
  unfold timeUp
  dsimp only
  split <;> exact ⟨rfl, rfl, rfl, rfl, rfl, rfl, rfl, rfl, rfl⟩

/-- C3: a frame of a running, unpaused round whose time step brings
`timeLeft` to 0 or below returns with `running = false`; the high score
becomes the score exactly when JavaScript `score > highScore` holds, which for
an integer high score `h` makes it `max h score`; and `setItem` is called,
with the decimal string of the score, exactly in that case (the store is
otherwise as before). -/
theorem time_expiry_ends_round (M : MathOps α) (rnd : ℕ → α) (now : α) (s : State α)
    (t : Target α) (ht : s.target = some t) (hr : s.running = true) (hp : s.paused = false)
    (hexp : s.timeLeft - frameDt now s ≤ 0) :
    ∃ s1, drawFrame M rnd now s = some s1 ∧ s1.running = false ∧
      s1.highScore = (if s.highScore.ltInt s.score then JSNum.int s.score else s.highScore) ∧
      s1.storage = (if s.highScore.ltInt s.score then s.storage.setItem (toString s.score)
                    else s.storage) ∧
      ∀ h, s.highScore = JSNum.int h →
        s1.highScore = JSNum.int (max h s.score) ∧
        (h < s.score → s1.storage = s.storage.setItem (toString s.score)) ∧
        (¬ h < s.score → s1.storage = s.storage) := by
  refine ⟨_, drawFrame_some M rnd now s t ht, ?_⟩
  rw [if_pos ⟨hr, hp⟩]
  have hk := frameUpdate_keeps M rnd (frameDt now s) t { s with lastTime := now }
  rw [if_pos (by exact hexp)] at hk
  obtain ⟨-, -, k3, k4, k5, -⟩ := hk
  have e1 : (frameUpdate M rnd (frameDt now s) t { s with lastTime := now }).running = false := by
    rw [k5]; exact (timeUp_fields _).1
  have e2 : (frameUpdate M rnd (frameDt now s) t { s with lastTime := now }).highScore =
      (if s.highScore.ltInt s.score then JSNum.int s.score else s.highScore) := by
    rw [k3]; exact (timeUp_fields _).2.1
  have e3 : (frameUpdate M rnd (frameDt now s) t { s with lastTime := now }).storage =
      (if s.highScore.ltInt s.score then s.storage.setItem (toString s.score)
       else s.storage) := by
    rw [k4]; exact (timeUp_fields _).2.2.1
  refine ⟨e1, e2, e3, ?_⟩
  intro h hh
  rw [e2, e3, hh]
  by_cases hlt : h < s.score
  · simp [JSNum.ltInt, hlt, max_eq_right hlt.le]
  · simp [JSNum.ltInt, hlt, max_eq_left (not_lt.mp hlt)]

/-- C3 at the scenario of the specification: score 150, high score 100, 0.02 s
left and a frame 50 ms after the last one.  The round ends, the high score is
150 and the store holds the string 150. -/
theorem time_expiry_ends_round_witness :
    ∃ s1, drawFrame
        ⟨Real.pi, Real.sin, Real.cos, fun y x => Complex.arg ⟨x, y⟩,
          fun x y => Real.sqrt (x ^ 2 + y ^ 2)⟩ (fun _ => 1 / 2) 28550
        { midRound ℝ with score := 150, timeLeft := 0.02 } = some s1 ∧
      s1.running = false ∧ s1.highScore = JSNum.int 150 ∧ s1.storage.item = some "150" := by
  obtain ⟨s1, h1, h2, -, -, h5⟩ := time_expiry_ends_round
    ⟨Real.pi, Real.sin, Real.cos, fun y x => Complex.arg ⟨x, y⟩,
      fun x y => Real.sqrt (x ^ 2 + y ^ 2)⟩ (fun _ => 1 / 2) 28550
    { midRound ℝ with score := 150, timeLeft := 0.02 } _ rfl rfl rfl
    (by norm_num [frameDt, midRound])
  obtain ⟨h6, h7, -⟩ := h5 100 rfl
  refine ⟨s1, h1, h2, ?_, ?_⟩
  · rw [h6]; rfl
  · rw [h7 (by decide)]; rfl

/-- C6: a frame taken with `lastTime ≤ now` returns; if the round is running
and not paused, `timeLeft` goes down by the elapsed seconds cut at 0.05 and so
does not go up; if it is paused or not running, `timeLeft` stays; and the time
`updateHUD` shows is `max 0 (ceil timeLeft)`, never below zero. -/
theorem timer_step (M : MathOps α) (rnd : ℕ → α) (now : α) (s : State α) (t : Target α)
    (ht : s.target = some t) (hclock : s.lastTime ≤ now) :
    ∃ s1, drawFrame M rnd now s = some s1 ∧
      (s.running = true ∧ s.paused = false →
        s1.timeLeft = s.timeLeft - min ((now - s.lastTime) / 1000) 0.05 ∧
        s1.timeLeft ≤ s.timeLeft) ∧
      (s.paused = true ∨ s.running = false → s1.timeLeft = s.timeLeft) ∧
      ∀ s2 : State α, (updateHUD s2).hud.time = max 0 ⌈s2.timeLeft⌉ ∧
        0 ≤ (updateHUD s2).hud.time := by
  refine ⟨_, drawFrame_some M rnd now s t ht, ?_, ?_, fun s2 => ⟨rfl, le_max_left _ _⟩⟩
  · intro hrun
    rw [if_pos hrun]
    have hk := frameUpdate_keeps M rnd (frameDt now s) t { s with lastTime := now }
    have e : (frameUpdate M rnd (frameDt now s) t { s with lastTime := now }).timeLeft =
        s.timeLeft - frameDt now s := by
      rw [hk.2.2.2.2.2.2.1]
      split
      · exact (timeUp_fields _).2.2.2.1
      · rfl
    rw [e, frameDt_eq]
    refine ⟨rfl, ?_⟩
    have h0 : (0 : α) ≤ min ((now - s.lastTime) / 1000) 0.05 :=
      le_min (div_nonneg (sub_nonneg.mpr hclock) (by norm_num)) (by norm_num)
    linarith
  · intro hidle
    rw [if_neg]
    rintro ⟨h1, h2⟩
    rcases hidle with h | h
    · rw [h2] at h; cases h
    · rw [h1] at h; cases h

/-- C6 at the round in progress `midRound` (31.5 s left, last frame at
28500 ms) and a frame at 28516 ms: 31.484 s are left afterwards. -/
theorem timer_step_witness :
    (midRound ℝ).lastTime ≤ 28516 ∧
    ∃ s1, drawFrame
        ⟨Real.pi, Real.sin, Real.cos, fun y x => Complex.arg ⟨x, y⟩,
          fun x y => Real.sqrt (x ^ 2 + y ^ 2)⟩ (fun _ => 1 / 2) 28516 (midRound ℝ) = some s1 ∧
      s1.timeLeft = 31.484 := by
  have hc : (midRound ℝ).lastTime ≤ 28516 := by norm_num [midRound]
  refine ⟨hc, ?_⟩
  obtain ⟨s1, h1, h2, -⟩ := timer_step
    ⟨Real.pi, Real.sin, Real.cos, fun y x => Complex.arg ⟨x, y⟩,
      fun x y => Real.sqrt (x ^ 2 + y ^ 2)⟩ (fun _ => 1 / 2) 28516 (midRound ℝ) _ rfl hc
  refine ⟨s1, h1, ?_⟩
  rw [(h2 ⟨rfl, rfl⟩).1]
  norm_num [midRound]

/-- The clamp keeps its argument inside the arc when `PI` is not negative. -/
theorem clamp_bounds (M : MathOps α) (hpi : 0 ≤ M.PI) (a : α) :
    - M.PI / 3 ≤ clamp M a ∧ clamp M a ≤ M.PI / 3 := by
  unfold clamp
  dsimp only
  refine ⟨le_max_left _ _, max_le ?_ (min_le_left _ _)⟩
  have h1 : (0 : α) ≤ M.PI / 3 := div_nonneg hpi (by norm_num)
  have h2 : - M.PI / 3 = - (M.PI / 3) := by ring
  rw [h2]
  linarith

/-- The fields of interest after `applyDifficulty`, when the target exists. -/
theorem applyDifficulty_fields (which : String) (s : State α) (t : Target α)
    (ht : s.target = some t) :
    (applyDifficulty which s).target.isSome = true ∧
    (applyDifficulty which s).highScore = s.highScore ∧
    (applyDifficulty which s).charging = s.charging ∧
    (applyDifficulty which s).aimAngle = s.aimAngle ∧
    10 ≤ (applyDifficulty which s).arrowsLeft := by
  rw [applyDifficulty_some which s t ht]
  refine ⟨rfl, rfl, rfl, rfl, ?_⟩
  show (10 : ℤ) ≤ if which = "Easy" then 20 else if which = "Hard" then 10 else 14
  split_ifs <;> norm_num

/-- The fields of interest after `startGame`, when the target exists. -/
theorem startGame_fields (now : α) (s : State α) (ht : s.target.isSome = true) :
    (startGame now s).target.isSome = true ∧
    (startGame now s).highScore = s.highScore ∧
    (startGame now s).charging = s.charging ∧
    (startGame now s).aimAngle = s.aimAngle ∧
    10 ≤ (startGame now s).arrowsLeft := by
  obtain ⟨t, ht1⟩ := Option.isSome_iff_exists.mp ht
  have h := applyDifficulty_fields s.diffSel
    { s with score := 0,
             timeLeft := if s.diffSel = "Easy" then 80 else if s.diffSel = "Hard" then 45 else 60,
             arrowsLeft := if s.diffSel = "Easy" then 20 else if s.diffSel = "Hard" then 10 else 14,
             arrows := [], particles := [], powerups := [], popups := [] } t ht1
  exact h

/-- The fields of interest after `releaseFire`. -/
theorem releaseFire_fields (M : MathOps α) (now mx my : α) (s : State α) :
    (releaseFire M now mx my s).target = s.target ∧
    (releaseFire M now mx my s).highScore = s.highScore ∧
    (releaseFire M now mx my s).aimAngle = s.aimAngle ∧
    (releaseFire M now mx my s).charging = false ∧
    (s.charging = false → releaseFire M now mx my s = s) ∧
    (s.charging = true →
      (releaseFire M now mx my s).arrowsLeft = max 0 (s.arrowsLeft - 1) ∧
      (releaseFire M now mx my s).arrows = s.arrows ++
        [Arrow.new
          (s.archerX + M.cos (clamp M (M.atan2 (my - s.archerY) (mx - s.archerX))) *
            (s.arrowLen / 2 + 10))
          (s.archerY + M.sin (clamp M (M.atan2 (my - s.archerY) (mx - s.archerX))) *
            (s.arrowLen / 2 + 10))
          (M.cos (clamp M (M.atan2 (my - s.archerY) (mx - s.archerX))) *
            launchSpeed M ((now - s.chargeStart) / 1000))
          (M.sin (clamp M (M.atan2 (my - s.archerY) (mx - s.archerX))) *
            launchSpeed M ((now - s.chargeStart) / 1000))
          (clamp M (M.atan2 (my - s.archerY) (mx - s.archerX)))]) := by
  unfold releaseFire
  cases hc : s.charging
  · simp [hc]
  · simp only [Bool.not_true, Bool.false_eq_true, if_false]
    refine ⟨rfl, rfl, rfl, rfl, ?_, ?_⟩
    · intro h; cases h
    · intro _; exact ⟨rfl, rfl⟩

/-- The fields of interest after a frame, when the target exists. -/
theorem drawFrame_fields (M : MathOps α) (rnd : ℕ → α) (now : α) (s : State α)
    (ht : s.target.isSome = true) :
    ∃ s1, drawFrame M rnd now s = some s1 ∧ s1.target.isSome = true ∧
      s1.charging = s.charging ∧ s1.aimAngle = s.aimAngle ∧ s.arrowsLeft ≤ s1.arrowsLeft ∧
      (s1.highScore = s.highScore ∨
        (s.highScore.ltInt s.score = true ∧ s1.highScore = JSNum.int s.score)) := by
  obtain ⟨t, ht1⟩ := Option.isSome_iff_exists.mp ht
  refine ⟨_, drawFrame_some M rnd now s t ht1, ?_⟩
  split
  · have hk := frameUpdate_keeps M rnd (frameDt now s) t { s with lastTime := now }
    obtain ⟨k1, k2, k3, -, -, -, -, -, -, -, -, k12⟩ := hk
    refine ⟨rfl, ?_, ?_, ?_, ?_⟩
    · rw [k1]; split
      · exact (timeUp_fields _).2.2.2.2.2.1
      · rfl
    · rw [k2]; split
      · exact (timeUp_fields _).2.2.2.2.2.2.1
      · rfl
    · refine le_trans (le_of_eq ?_) k12
      split
      · rw [(timeUp_fields _).2.2.2.2.1]
      · rfl
    · rw [k3]; split
      · rw [(timeUp_fields _).2.1]
        show (if s.highScore.ltInt s.score then JSNum.int s.score else s.highScore) = _ ∨ _
        cases hlt : s.highScore.ltInt s.score
        · left; rfl
        · right; exact ⟨rfl, rfl⟩
      · left; rfl
  · exact ⟨ht, rfl, rfl, le_rfl, Or.inl rfl⟩

theorem onPointerDown_inv (M : MathOps α) (now cx cy : α) (s : State α) :
    (onPointerDown M now cx cy s).highScore = s.highScore ∧
    (onPointerDown M now cx cy s).target = s.target ∧
    (Inv M s → Inv M (onPointerDown M now cx cy s)) := by
  unfold onPointerDown
  split
  · exact ⟨rfl, rfl, id⟩
  · split
    · exact ⟨rfl, rfl, id⟩
    · dsimp only
      unfold startCharge
      dsimp only
      have hb := fun hpi => clamp_bounds M hpi (M.atan2 (cy - s.archerY) (cx - s.archerX))
      split
      · exact ⟨rfl, rfl, fun h => ⟨h.1, h.2.1, h.2.2.1, hb⟩⟩
      · next hle =>
        refine ⟨rfl, rfl, fun h => ⟨h.1, h.2.1, fun _ => ?_, hb⟩⟩
        have : 0 < s.arrowsLeft := not_le.mp hle
        show 1 ≤ s.arrowsLeft
        omega

theorem onPointerUp_inv (M : MathOps α) (now cx cy : α) (s : State α) :
    (onPointerUp M now cx cy s).highScore = s.highScore ∧
    (onPointerUp M now cx cy s).target = s.target ∧
    (Inv M s → Inv M (onPointerUp M now cx cy s)) := by
  unfold onPointerUp
  split
  · exact ⟨rfl, rfl, id⟩
  · split
    · exact ⟨rfl, rfl, id⟩
    · obtain ⟨f1, f2, f3, f4, f5, f6⟩ := releaseFire_fields M now cx cy { s with pointerActive := false }
      refine ⟨f2, f1, fun h => ?_⟩
      refine ⟨by rw [f1]; exact h.1, ?_, fun hc => ?_, by rw [f3]; exact h.2.2.2⟩
      · rcases Bool.eq_false_or_eq_true s.charging with hc | hc
        · rw [(f6 hc).1]; exact le_max_left _ _
        · rw [f5 hc]; exact h.2.1
      · rw [f4] at hc; cases hc

theorem onPointerMove_inv (M : MathOps α) (cx cy : α) (s : State α) :
    (onPointerMove M cx cy s).highScore = s.highScore ∧
    (onPointerMove M cx cy s).target = s.target ∧
    (Inv M s → Inv M (onPointerMove M cx cy s)) := by
  have hb := fun hpi => clamp_bounds M hpi (M.atan2 (cy - s.archerY) (cx - s.archerX))
  exact ⟨rfl, rfl, fun h => ⟨h.1, h.2.1, h.2.2.1, hb⟩⟩

theorem startGame_inv (M : MathOps α) (now : α) (s : State α) (ht : s.target.isSome = true) :
    (startGame now s).highScore = s.highScore ∧
    (startGame now s).target.isSome = true ∧
    (Inv M s → Inv M (startGame now s)) := by
  obtain ⟨f1, f2, f3, f4, f5⟩ := startGame_fields now s ht
  refine ⟨f2, f1, fun h => ⟨f1, by omega, fun _ => by omega, by rw [f4]; exact h.2.2.2⟩⟩

theorem togglePause_inv (M : MathOps α) (s : State α) :
    (togglePause s).highScore = s.highScore ∧
    (togglePause s).target = s.target ∧
    (Inv M s → Inv M (togglePause s)) := by
  unfold togglePause
  split
  · exact ⟨rfl, rfl, id⟩
  · exact ⟨rfl, rfl, fun h => ⟨h.1, h.2.1, h.2.2.1, h.2.2.2⟩⟩

theorem onDifficultyChange_inv (M : MathOps α) (v : String) (s : State α)
    (ht : s.target.isSome = true) :
    (onDifficultyChange v s).highScore = s.highScore ∧
    (onDifficultyChange v s).target.isSome = true ∧
    (Inv M s → Inv M (onDifficultyChange v s)) := by
  obtain ⟨t, ht1⟩ := Option.isSome_iff_exists.mp ht
  obtain ⟨f1, f2, f3, f4, f5⟩ := applyDifficulty_fields v { s with diffSel := v } t ht1
  refine ⟨f2, f1, fun h => ⟨f1, ?_, fun _ => ?_, ?_⟩⟩
  · exact le_trans (by norm_num) f5
  · exact le_trans (by norm_num) f5
  · have e : (onDifficultyChange v s).aimAngle = s.aimAngle := f4
    rw [e]; exact h.2.2.2

theorem onKeyDown_inv (M : MathOps α) (now : α) (key : String) (s : State α)
    (ht : s.target.isSome = true) :
    (onKeyDown now key s).highScore = s.highScore ∧
    (onKeyDown now key s).target.isSome = true ∧
    (Inv M s → Inv M (onKeyDown now key s)) := by
  unfold onKeyDown restartGame
  dsimp only
  have hp := togglePause_inv M s
  by_cases hP : key = "p" ∨ key = "P" <;> by_cases hR : key = "r" ∨ key = "R"
  · rw [if_pos hR, if_pos hP]
    have hs := startGame_inv M now (togglePause s) (by rw [hp.2.1]; exact ht)
    exact ⟨hs.1.trans hp.1, hs.2.1, fun h => hs.2.2 (hp.2.2 h)⟩
  · rw [if_neg hR, if_pos hP]
    exact ⟨hp.1, by rw [hp.2.1]; exact ht, hp.2.2⟩
  · rw [if_pos hR, if_neg hP]
    exact startGame_inv M now s ht
  · rw [if_neg hR, if_neg hP]
    exact ⟨rfl, ht, id⟩

theorem onResize_inv (M : MathOps α) (w h : α) (s : State α) :
    (onResize w h s).highScore = s.highScore ∧
    (onResize w h s).target = s.target ∧
    (Inv M s → Inv M (onResize w h s)) :=
  ⟨rfl, rfl, fun hi => ⟨hi.1, hi.2.1, hi.2.2.1, hi.2.2.2⟩⟩

theorem drawFrame_inv (M : MathOps α) (rnd : ℕ → α) (now : α) (s : State α) (h : Inv M s) :
    ∃ s1, drawFrame M rnd now s = some s1 ∧ Inv M s1 := by
  obtain ⟨s1, h1, h2, h3, h4, h5, -⟩ := drawFrame_fields M rnd now s h.1
  refine ⟨s1, h1, h2, h.2.1.trans h5, fun hc => ?_, by rw [h4]; exact h.2.2.2⟩
  rw [h3] at hc
  exact (h.2.2.1 hc).trans h5

/-- Every event leads from a state that satisfies the invariant to a state
that satisfies it. -/
theorem step_inv (M : MathOps α) (rnd : ℕ → α) (s : State α) (e : Event α)
    (h : Inv M s) : ∃ s1, step M rnd s e = some s1 ∧ Inv M s1 := by
  cases e with
  | pointerDown now cx cy => exact ⟨_, rfl, (onPointerDown_inv M now cx cy s).2.2 h⟩
  | pointerUp now cx cy => exact ⟨_, rfl, (onPointerUp_inv M now cx cy s).2.2 h⟩
  | pointerMove cx cy => exact ⟨_, rfl, (onPointerMove_inv M cx cy s).2.2 h⟩
  | clickStart now => exact ⟨_, rfl, (startGame_inv M now s h.1).2.2 h⟩
  | clickPause => exact ⟨_, rfl, (togglePause_inv M s).2.2 h⟩
  | clickRestart now => exact ⟨_, rfl, (startGame_inv M now s h.1).2.2 h⟩
  | difficultyChange v => exact ⟨_, rfl, (onDifficultyChange_inv M v s h.1).2.2 h⟩
  | keyDown now key => exact ⟨_, rfl, (onKeyDown_inv M now key s h.1).2.2 h⟩
  | resize w h1 => exact ⟨_, rfl, (onResize_inv M w h1 s).2.2 h⟩
  | frame now => exact drawFrame_inv M rnd now s h

/-- Every event returns from a state with a target, leaves a target, and
either keeps the high score or raises it to a score that JavaScript `>`
found greater; the start and restart buttons keep it. -/
theorem step_highScore (M : MathOps α) (rnd : ℕ → α) (s : State α) (e : Event α)
    (ht : s.target.isSome = true) :
    ∃ s1, step M rnd s e = some s1 ∧ s1.target.isSome = true ∧
      (s1.highScore = s.highScore ∨
        (s.highScore.ltInt s.score = true ∧ s1.highScore = JSNum.int s.score)) ∧
      ((∃ now, e = Event.clickStart now ∨ e = Event.clickRestart now) →
        s1.highScore = s.highScore) := by
  cases e with
  | pointerDown now cx cy =>
    refine ⟨_, rfl, ?_, Or.inl ?_, fun _ => ?_⟩
    · show (onPointerDown M now cx cy s).target.isSome = true
      unfold onPointerDown startCharge; dsimp only; split_ifs <;> exact ht
    all_goals (show (onPointerDown M now cx cy s).highScore = s.highScore;
               unfold onPointerDown startCharge; dsimp only; split_ifs <;> rfl)
  | pointerUp now cx cy =>
    have h := onPointerUp_inv M now cx cy s
    exact ⟨_, rfl, by show (onPointerUp M now cx cy s).target.isSome = true; rw [h.2.1]; exact ht,
      Or.inl h.1, fun _ => h.1⟩
  | pointerMove cx cy => exact ⟨_, rfl, ht, Or.inl rfl, fun _ => rfl⟩
  | clickStart now =>
    have h := startGame_inv M now s ht
    exact ⟨_, rfl, h.2.1, Or.inl h.1, fun _ => h.1⟩
  | clickPause =>
    have h := togglePause_inv M s
    exact ⟨_, rfl, by show (togglePause s).target.isSome = true; rw [h.2.1]; exact ht,
      Or.inl h.1, fun _ => h.1⟩
  | clickRestart now =>
    have h := startGame_inv M now s ht
    exact ⟨_, rfl, h.2.1, Or.inl h.1, fun _ => h.1⟩
  | difficultyChange v =>
    have h := onDifficultyChange_inv M v s ht
    exact ⟨_, rfl, h.2.1, Or.inl h.1, fun _ => h.1⟩
  | keyDown now key =>
    have h := onKeyDown_inv M now key s ht
    exact ⟨_, rfl, h.2.1, Or.inl h.1, fun _ => h.1⟩
  | resize w h1 => exact ⟨_, rfl, ht, Or.inl rfl, fun _ => rfl⟩
  | frame now =>
    obtain ⟨s1, h1, h2, -, -, -, h6⟩ := drawFrame_fields M rnd now s ht
    refine ⟨s1, h1, h2, h6, ?_⟩
    rintro ⟨n, hn | hn⟩ <;> cases hn

/-- `loadHighScore` touches the high score and the HUD only. -/
theorem loadHighScore_fields (s : State α) :
    (loadHighScore s).charging = s.charging ∧ (loadHighScore s).aimAngle = s.aimAngle ∧
    (loadHighScore s).target = s.target ∧ (loadHighScore s).diffSel = s.diffSel := by
  unfold loadHighScore
  split
  · exact ⟨rfl, rfl, rfl, rfl⟩
  · exact ⟨rfl, rfl, rfl, rfl⟩
  · split <;> exact ⟨rfl, rfl, rfl, rfl⟩

/-- The script reaches the end of `init()` and the state it leaves satisfies
the invariant. -/
theorem init_inv (M : MathOps α) (rnd : ℕ → α) (b : Boot α) :
    ∃ s, init M rnd b = some s ∧ Inv M s := by
  unfold init
  dsimp only
  generalize hs1 : resizeCanvas (resizeCanvas (initialGlobals M b)) = s1
  have c1 : s1.charging = false := by rw [← hs1]; rfl
  have a1 : s1.aimAngle = - M.PI / 8 := by rw [← hs1]; rfl
  obtain ⟨l1, l2, -, -⟩ := loadHighScore_fields s1
  generalize hs2 : loadHighScore s1 = s2 at l1 l2
  obtain ⟨f1, -, f3, f4, f5⟩ := applyDifficulty_fields s2.diffSel
    { s2 with target := some (Target.new (s2.W - jsFloor (s2.W * 0.18))
                              (s2.groundY - jsFloor (s2.H * 0.18))
                              (jsFloor (min s2.W s2.H * 0.09)) (-160)) } _ rfl
  refine drawFrame_inv M rnd b.t1 _ ⟨f1, le_trans (by norm_num) f5,
    fun _ => le_trans (by norm_num) f5, fun hpi => ⟨?_, ?_⟩⟩
  · rw [f4]
    show - M.PI / 3 ≤ s2.aimAngle
    rw [l2, a1]
    linarith
  · rw [f4]
    show s2.aimAngle ≤ M.PI / 3
    rw [l2, a1]
    linarith

/-- Every reachable state satisfies the invariant. -/
theorem reachable_inv (M : MathOps α) (rnd : ℕ → α) (s : State α)
    (h : Reachable M rnd s) : Inv M s := by
  induction h with
  | boot b s hb =>
    obtain ⟨s0, h0, hi⟩ := init_inv M rnd b
    rw [hb] at h0
    cases h0
    exact hi
  | next s s1 e _ hstep ih =>
    obtain ⟨s2, h2, hi⟩ := step_inv M rnd s e ih
    rw [hstep] at h2
    cases h2
    exact hi

/-- From a state with a target and an integer high score, every event returns,
leaves a target and an integer high score that is not smaller. -/
theorem step_highScore_int (M : MathOps α) (rnd : ℕ → α) (s : State α) (e : Event α) (h : ℤ)
    (ht : s.target.isSome = true) (hh : s.highScore = JSNum.int h) :
    ∃ s1 h1, step M rnd s e = some s1 ∧ s1.target.isSome = true ∧
      s1.highScore = JSNum.int h1 ∧ h ≤ h1 ∧
      ((∃ now, e = Event.clickStart now ∨ e = Event.clickRestart now) → h1 = h) := by
  obtain ⟨s1, e1, e2, e3, e4⟩ := step_highScore M rnd s e ht
  rcases e3 with e3 | ⟨e3, e5⟩
  · exact ⟨s1, h, e1, e2, e3.trans hh, le_rfl, fun _ => rfl⟩
  · refine ⟨s1, s.score, e1, e2, e5, ?_, fun hx => ?_⟩
    · rw [hh] at e3
      have : h < s.score := by simpa [JSNum.ltInt] using e3
      exact this.le
    · have := e4 hx
      rw [e5, hh] at this
      cases this
      rfl

/-- From a state with a target and an integer high score, every sequence of
events returns, with a target and an integer high score that is not smaller. -/
theorem run_highScore_int (M : MathOps α) (rnd : ℕ → α) (es : List (Event α)) :
    ∀ (s : State α) (h : ℤ), s.target.isSome = true → s.highScore = JSNum.int h →
      ∃ s1 h1, run M rnd s es = some s1 ∧ s1.target.isSome = true ∧
        s1.highScore = JSNum.int h1 ∧ h ≤ h1 := by
  induction es with
  | nil => exact fun s h ht hh => ⟨s, h, rfl, ht, hh, le_rfl⟩
  | cons e es ih =>
    intro s h ht hh
    obtain ⟨s1, h1, a1, a2, a3, a4, -⟩ := step_highScore_int M rnd s e h ht hh
    obtain ⟨s2, h2, b1, b2, b3, b4⟩ := ih s1 h1 a2 a3
    refine ⟨s2, h2, ?_, b2, b3, a4.trans b4⟩
    simp only [run, a1, Option.some_bind]
    exact b1

/-- C4: from a state (with a target) whose high score is an integer `h ≥ 0`,
every sequence of events `es` returns a state whose high score is an integer
`h1 ≥ h`, and any further event `e` returns a state whose high score is an
integer `h2 ≥ h1`; when `e` is the start or the restart button, `h2 = h1`. -/
theorem highScore_never_decreases (M : MathOps α) (rnd : ℕ → α) (s : State α) (h : ℤ)
    (ht : s.target.isSome = true) (hh : s.highScore = JSNum.int h) (h0 : 0 ≤ h)
    (es : List (Event α)) (e : Event α) :
    ∃ s1 s2 h1 h2, run M rnd s es = some s1 ∧ step M rnd s1 e = some s2 ∧
      s1.highScore = JSNum.int h1 ∧ s2.highScore = JSNum.int h2 ∧
      0 ≤ h1 ∧ h ≤ h1 ∧ h1 ≤ h2 ∧
      ((∃ now, e = Event.clickStart now ∨ e = Event.clickRestart now) → h2 = h1) := by
  obtain ⟨s1, h1, a1, a2, a3, a4⟩ := run_highScore_int M rnd es s h ht hh
  obtain ⟨s2, h2, b1, -, b3, b4, b5⟩ := step_highScore_int M rnd s1 e h1 a2 a3
  exact ⟨s1, s2, h1, h2, a1, b1, a3, b3, h0.trans a4, a4, b4, b5⟩

/-- C4 at the round in progress `midRound` (high score 100): after a restart
and a frame, one more frame leaves a high score that is at least 100. -/
theorem highScore_never_decreases_witness :
    (midRound ℝ).highScore = JSNum.int 100 ∧
    ∃ s1 s2 h2,
      run ⟨Real.pi, Real.sin, Real.cos, fun y x => Complex.arg ⟨x, y⟩,
          fun x y => Real.sqrt (x ^ 2 + y ^ 2)⟩ (fun _ => 1 / 2) (midRound ℝ)
        [Event.clickRestart 30000, Event.frame 30016] = some s1 ∧
      step ⟨Real.pi, Real.sin, Real.cos, fun y x => Complex.arg ⟨x, y⟩,
          fun x y => Real.sqrt (x ^ 2 + y ^ 2)⟩ (fun _ => 1 / 2) s1 (Event.frame 30032) =
        some s2 ∧
      s2.highScore = JSNum.int h2 ∧ 100 ≤ h2 := by
  refine ⟨rfl, ?_⟩
  obtain ⟨s1, s2, h1, h2, a1, a2, -, a4, -, a6, a7, -⟩ := highScore_never_decreases
    ⟨Real.pi, Real.sin, Real.cos, fun y x => Complex.arg ⟨x, y⟩,
      fun x y => Real.sqrt (x ^ 2 + y ^ 2)⟩ (fun _ => 1 / 2) (midRound ℝ) 100 rfl rfl
    (by norm_num) [Event.clickRestart 30000, Event.frame 30016] (Event.frame 30032)
  exact ⟨s1, s2, h2, a1, a2, a4, a6.trans a7⟩

/-- C5: in every reachable state `arrowsLeft ≥ 0`, and a charge is held only
with `arrowsLeft ≥ 1`; so whenever the pointer-up listener, or `releaseFire`
itself, adds an arrow, `arrowsLeft` was at least 1 and is one less afterwards;
and with `arrowsLeft = 0` neither `startCharge` nor the pointer-down listener
leaves `charging` true. -/
theorem arrows_never_negative (M : MathOps α) (rnd : ℕ → α) (s : State α)
    (hr : Reachable M rnd s) :
    0 ≤ s.arrowsLeft ∧ (s.charging = true → 1 ≤ s.arrowsLeft) ∧
    (∀ now cx cy, (onPointerUp M now cx cy s).arrows ≠ s.arrows →
      1 ≤ s.arrowsLeft ∧ (onPointerUp M now cx cy s).arrowsLeft = s.arrowsLeft - 1) ∧
    (∀ now mx my, (releaseFire M now mx my s).arrows ≠ s.arrows →
      1 ≤ s.arrowsLeft ∧ (releaseFire M now mx my s).arrowsLeft = s.arrowsLeft - 1) ∧
    (∀ now, s.arrowsLeft = 0 → (startCharge now s).charging = false) ∧
    (∀ now cx cy, s.arrowsLeft = 0 → (onPointerDown M now cx cy s).charging = false) := by
  obtain ⟨-, i2, i3, -⟩ := reachable_inv M rnd s hr
  have hnc : s.arrowsLeft = 0 → s.charging = false := by
    intro h0
    rcases Bool.eq_false_or_eq_true s.charging with hc | hc
    · have := i3 hc; omega
    · exact hc
  have hfire : ∀ (now mx my : α) (s0 : State α), s0.charging = s.charging →
      s0.arrowsLeft = s.arrowsLeft → s0.arrows = s.arrows →
      (releaseFire M now mx my s0).arrows ≠ s.arrows →
      1 ≤ s.arrowsLeft ∧ (releaseFire M now mx my s0).arrowsLeft = s.arrowsLeft - 1 := by
    intro now mx my s0 e1 e2 e3 hne
    obtain ⟨-, -, -, -, f5, f6⟩ := releaseFire_fields M now mx my s0
    rcases Bool.eq_false_or_eq_true s0.charging with hc | hc
    · have h1 := i3 (e1 ▸ hc)
      refine ⟨h1, ?_⟩
      rw [(f6 hc).1, e2]
      exact max_eq_right (by omega)
    · rw [f5 hc] at hne
      exact absurd e3 hne
  refine ⟨i2, i3, ?_, ?_, ?_, ?_⟩
  · intro now cx cy hne
    unfold onPointerUp at hne ⊢
    split at hne
    · exact absurd rfl hne
    · split at hne
      · exact absurd rfl hne
      · next h1 h2 =>
        rw [if_neg h1, if_neg h2]
        exact hfire now cx cy { s with pointerActive := false } rfl rfl rfl hne
  · intro now mx my hne
    exact hfire now mx my s rfl rfl rfl hne
  · intro now h0
    unfold startCharge
    rw [if_pos (le_of_eq h0)]
    exact hnc h0
  · intro now cx cy h0
    unfold onPointerDown startCharge
    dsimp only
    rw [if_pos (le_of_eq h0)]
    split_ifs <;> exact hnc h0

/-- C5 at the state that `init` leaves for the page load `sampleBoot`. -/
theorem arrows_never_negative_witness :
    ∃ s, init ⟨Real.pi, Real.sin, Real.cos, fun y x => Complex.arg ⟨x, y⟩,
        fun x y => Real.sqrt (x ^ 2 + y ^ 2)⟩ (fun _ => 1 / 2) (sampleBoot ℝ) = some s ∧
      0 ≤ s.arrowsLeft ∧ (s.charging = true → 1 ≤ s.arrowsLeft) := by
  obtain ⟨s, hs, -⟩ := init_inv
    ⟨Real.pi, Real.sin, Real.cos, fun y x => Complex.arg ⟨x, y⟩,
      fun x y => Real.sqrt (x ^ 2 + y ^ 2)⟩ (fun _ => 1 / 2) (sampleBoot ℝ)
  have h := arrows_never_negative _ _ s (Reachable.boot (sampleBoot ℝ) s hs)
  exact ⟨s, hs, h.1, h.2.1⟩

/-- C10: with a host `PI` that is not negative, `clamp(a)` lies in
`[-PI/3, PI/3]` for every `a` and is `a` when `a` already lies there; so the
aim of every reachable state lies in that arc, and so does the angle of the
arrow that `releaseFire` adds. -/
theorem aim_within_arc (M : MathOps α) (hpi : 0 ≤ M.PI) :
    (∀ a, - M.PI / 3 ≤ clamp M a ∧ clamp M a ≤ M.PI / 3) ∧
    (∀ a, - M.PI / 3 ≤ a → a ≤ M.PI / 3 → clamp M a = a) ∧
    (∀ (rnd : ℕ → α) (s : State α), Reachable M rnd s →
      - M.PI / 3 ≤ s.aimAngle ∧ s.aimAngle ≤ M.PI / 3) ∧
    (∀ (now mx my : α) (s : State α), s.charging = true →
      ∃ a, (releaseFire M now mx my s).arrows = s.arrows ++ [a] ∧
        - M.PI / 3 ≤ a.angle ∧ a.angle ≤ M.PI / 3) := by
  refine ⟨clamp_bounds M hpi, ?_, ?_, ?_⟩
  · intro a h1 h2
    unfold clamp
    dsimp only
    rw [min_eq_right h2, max_eq_right h1]
  · intro rnd s hr
    exact (reachable_inv M rnd s hr).2.2.2 hpi
  · intro now mx my s hc
    obtain ⟨-, -, -, -, -, f6⟩ := releaseFire_fields M now mx my s
    exact ⟨_, (f6 hc).2, clamp_bounds M hpi _⟩

/-- C10 over the reals, where `PI` is positive, at the angle 5 and at the page
load `sampleBoot`. -/
theorem aim_within_arc_witness :
    (0 : ℝ) ≤ Real.pi ∧
    - Real.pi / 3 ≤ clamp ⟨Real.pi, Real.sin, Real.cos, fun y x => Complex.arg ⟨x, y⟩,
        fun x y => Real.sqrt (x ^ 2 + y ^ 2)⟩ 5 ∧
    clamp ⟨Real.pi, Real.sin, Real.cos, fun y x => Complex.arg ⟨x, y⟩,
        fun x y => Real.sqrt (x ^ 2 + y ^ 2)⟩ 5 ≤ Real.pi / 3 :=
  ⟨Real.pi_pos.le,
   ((aim_within_arc ⟨Real.pi, Real.sin, Real.cos, fun y x => Complex.arg ⟨x, y⟩,
        fun x y => Real.sqrt (x ^ 2 + y ^ 2)⟩ Real.pi_pos.le).1 5).1,
   ((aim_within_arc ⟨Real.pi, Real.sin, Real.cos, fun y x => Complex.arg ⟨x, y⟩,
        fun x y => Real.sqrt (x ^ 2 + y ^ 2)⟩ Real.pi_pos.le).1 5).2⟩

/-- C8 at the failing input: with storage that works and holds the string
`abc` under the key, `loadHighScore` run on a high score of 0 leaves `NaN`,
not 0 (and the HUD shows it). -/
theorem loadHighScore_corrupt_value (s : State α) :
    (loadHighScore { s with highScore := JSNum.int 0,
                            storage := { available := true, item := some "abc",
                                         setItemCalls := [] } }).highScore = JSNum.nan ∧
    (loadHighScore { s with highScore := JSNum.int 0,
                            storage := { available := true, item := some "abc",
                                         setItemCalls := [] } }).hud.high = JSNum.nan := by
  have h : parseInt "abc" = JSNum.nan := by decide
  simp [loadHighScore, Storage.getItem, updateHUD, h]

/-- The cases in which `loadHighScore`, run on a high score of 0, leaves 0: the
storage throws, the key is absent, or the stored string is empty; for any
other stored string the high score is what `parseInt` makes of it. -/
theorem loadHighScore_cases (s : State α) (h0 : s.highScore = JSNum.int 0) :
    (s.storage.available = false → (loadHighScore s).highScore = JSNum.int 0) ∧
    (s.storage.available = true → s.storage.item = none →
      (loadHighScore s).highScore = JSNum.int 0) ∧
    (s.storage.available = true → s.storage.item = some "" →
      (loadHighScore s).highScore = JSNum.int 0) ∧
    (∀ v, s.storage.available = true → s.storage.item = some v → v ≠ "" →
      (loadHighScore s).highScore = parseInt v) := by
  refine ⟨?_, ?_, ?_, ?_⟩
  · intro ha
    simp [loadHighScore, Storage.getItem, ha, updateHUD]
  · intro ha hi
    simp [loadHighScore, Storage.getItem, ha, hi, updateHUD, h0]
  · intro ha hi
    simp [loadHighScore, Storage.getItem, ha, hi, updateHUD, h0]
  · intro v ha hi hv
    simp [loadHighScore, Storage.getItem, ha, hi, hv, updateHUD]

end FrameProofs

section Speed

/-- The launch speed for any host `Math` whose `sin` is 0 at 0, 1 at `PI * 0.5`
and between 0 and 1 in between. -/
theorem launchSpeed_of_sin {α : Type} [LinearOrderedField α] [FloorRing α] (M : MathOps α)
    (hpi : 0 ≤ M.PI) (hs0 : M.sin 0 = 0) (hs1 : M.sin (M.PI * 0.5) = 1)
    (hrange : ∀ x, 0 ≤ x → x ≤ M.PI * 0.5 → 0 ≤ M.sin x ∧ M.sin x ≤ 1) :
    launchSpeed M 0 = 260 ∧ (∀ h, 1.6 ≤ h → launchSpeed M h = 1050) ∧
    ∀ h, 0 ≤ h → 260 ≤ launchSpeed M h ∧ launchSpeed M h ≤ 1050 := by
  refine ⟨?_, ?_, ?_⟩
  · have h : min (0 : α) MAX_CHARGE = 0 := min_eq_left (by norm_num [MAX_CHARGE])
    simp [launchSpeed, h, hs0, MIN_SPEED]
  · intro h hh
    have hm : min h (MAX_CHARGE : α) = MAX_CHARGE := min_eq_right (by simpa [MAX_CHARGE] using hh)
    have hd : (MAX_CHARGE : α) / MAX_CHARGE * M.PI * 0.5 = M.PI * 0.5 := by
      rw [div_self (by norm_num [MAX_CHARGE]), one_mul]
    unfold launchSpeed
    dsimp only
    rw [hm, hd, hs1]
    norm_num [MIN_SPEED, MAX_SPEED]
  · intro h hh
    have hc : (0 : α) < MAX_CHARGE := by norm_num [MAX_CHARGE]
    have ht0 : 0 ≤ min h (MAX_CHARGE : α) / MAX_CHARGE :=
      div_nonneg (le_min hh hc.le) hc.le
    have ht1 : min h (MAX_CHARGE : α) / MAX_CHARGE ≤ 1 := by
      rw [div_le_one hc]
      exact min_le_right _ _
    have hx0 : 0 ≤ min h (MAX_CHARGE : α) / MAX_CHARGE * M.PI * 0.5 :=
      mul_nonneg (mul_nonneg ht0 hpi) (by norm_num)
    have hx1 : min h (MAX_CHARGE : α) / MAX_CHARGE * M.PI * 0.5 ≤ M.PI * 0.5 := by
      have : min h (MAX_CHARGE : α) / MAX_CHARGE * M.PI ≤ 1 * M.PI :=
        mul_le_mul_of_nonneg_right ht1 hpi
      rw [one_mul] at this
      exact mul_le_mul_of_nonneg_right this (by norm_num)
    obtain ⟨r0, r1⟩ := hrange _ hx0 hx1
    unfold launchSpeed
    dsimp only
    constructor
    · have : (0 : α) ≤ M.sin (min h MAX_CHARGE / MAX_CHARGE * M.PI * 0.5) * (MAX_SPEED - MIN_SPEED) :=
        mul_nonneg r0 (by norm_num [MIN_SPEED, MAX_SPEED])
      simp only [MIN_SPEED] at this ⊢
      linarith
    · have : M.sin (min h MAX_CHARGE / MAX_CHARGE * M.PI * 0.5) * (MAX_SPEED - MIN_SPEED) ≤
          1 * ((MAX_SPEED : α) - MIN_SPEED) :=
        mul_le_mul_of_nonneg_right r1 (by norm_num [MIN_SPEED, MAX_SPEED])
      simp only [MIN_SPEED, MAX_SPEED] at this ⊢
      linarith

/-- C9: over the reals, with the real sine and pi for `Math.sin` and `Math.PI`,
the constants are `MIN_SPEED = 260`, `MAX_SPEED = 1050`, `MAX_CHARGE = 1.6`;
the launch speed is `MIN_SPEED` for a hold of 0 s, `MAX_SPEED` for every hold
of at least `MAX_CHARGE` seconds, and within `[MIN_SPEED, MAX_SPEED]` for
every hold `h ≥ 0`; and it is the speed of the arrow `releaseFire` adds: its
velocity is `(cos angle, sin angle)` times the launch speed of the hold
`(now - chargeStart) / 1000`. -/
theorem launchSpeed_range (M : MathOps ℝ) (hsin : M.sin = Real.sin) (hpi : M.PI = Real.pi) :
    (MIN_SPEED : ℝ) = 260 ∧ (MAX_SPEED : ℝ) = 1050 ∧ (MAX_CHARGE : ℝ) = 1.6 ∧
    launchSpeed M 0 = MIN_SPEED ∧
    (∀ h, MAX_CHARGE ≤ h → launchSpeed M h = MAX_SPEED) ∧
    (∀ h, 0 ≤ h → MIN_SPEED ≤ launchSpeed M h ∧ launchSpeed M h ≤ MAX_SPEED) ∧
    ∀ (now mx my : ℝ) (s : State ℝ), s.charging = true →
      ∃ a, (releaseFire M now mx my s).arrows = s.arrows ++ [a] ∧
        a.vx = M.cos a.angle * launchSpeed M ((now - s.chargeStart) / 1000) ∧
        a.vy = M.sin a.angle * launchSpeed M ((now - s.chargeStart) / 1000) := by
  have hp : (0 : ℝ) ≤ M.PI := by rw [hpi]; exact Real.pi_pos.le
  have hhalf : M.PI * 0.5 = Real.pi / 2 := by rw [hpi]; norm_num; ring
  obtain ⟨h1, h2, h3⟩ := launchSpeed_of_sin M hp (by rw [hsin]; exact Real.sin_zero)
    (by rw [hsin, hhalf]; exact Real.sin_pi_div_two)
    (by
      intro x hx0 hx1
      rw [hsin]
      refine ⟨Real.sin_nonneg_of_nonneg_of_le_pi hx0 ?_, Real.sin_le_one x⟩
      rw [hhalf] at hx1
      linarith [Real.pi_pos])
  refine ⟨rfl, rfl, rfl, h1, fun h hh => ?_, fun h hh => ?_, ?_⟩
  · rw [h2 h (by simpa [MAX_CHARGE] using hh)]; rfl
  · exact h3 h hh
  · intro now mx my s hc
    obtain ⟨-, -, -, -, -, f6⟩ := releaseFire_fields M now mx my s
    exact ⟨_, (f6 hc).2, rfl, rfl⟩

/-- C9 at the real `Math` functions and a hold of 2 s: the speed is 1050. -/
theorem launchSpeed_range_witness :
    (MAX_CHARGE : ℝ) ≤ 2 ∧
    launchSpeed ⟨Real.pi, Real.sin, Real.cos, fun y x => Complex.arg ⟨x, y⟩,
      fun x y => Real.sqrt (x ^ 2 + y ^ 2)⟩ 2 = 1050 :=
  ⟨by norm_num [MAX_CHARGE],
   ((launchSpeed_range ⟨Real.pi, Real.sin, Real.cos, fun y x => Complex.arg ⟨x, y⟩,
      fun x y => Real.sqrt (x ^ 2 + y ^ 2)⟩ rfl rfl).2.2.2.2.1 2
      (by norm_num [MAX_CHARGE])).trans rfl⟩

end Speed

end Archery

namespace Archery

section EndingFrame

set_option linter.unusedSectionVars false

variable {α : Type} [LinearOrderedField α] [FloorRing α]

/-- The end of the round leaves the score, the layout, the collections and the
random stream where they were. -/
theorem timeUp_rest (s : State α) :
    (timeUp s).score = s.score ∧ (timeUp s).gravity = s.gravity ∧
    (timeUp s).arrowLen = s.arrowLen ∧ (timeUp s).powerups = s.powerups ∧
    (timeUp s).arrows = s.arrows ∧ (timeUp s).randomCalls = s.randomCalls := by
  unfold timeUp
  dsimp only
  split <;> exact ⟨rfl, rfl, rfl, rfl, rfl, rfl⟩

/-- `spawnParticles` leaves the score alone. -/
theorem spawnParticles_score (M : MathOps α) (rnd : ℕ → α) (x y : α) (c : String) (n : ℕ)
    (s : State α) : (spawnParticles M rnd x y c n s).score = s.score := by
  induction n generalizing s with
  | zero => rfl
  | succ n ih =>
    unfold spawnParticles
    exact ih _

/-- The score after the target-collision statement when the tip hits: the
points of the tip are added. -/
theorem targetCollision_score_hit (M : MathOps α) (rnd : ℕ → α) (a : Arrow α) (tip : α × α)
    (acc : Target α × State α) (hhit : acc.1.hit M tip.1 tip.2 = true) :
    (targetCollision M rnd a tip acc).1.2.score = acc.2.score + acc.1.pointsFor M tip.1 tip.2 ∧
    ∃ b, (targetCollision M rnd a tip acc).2 = some b := by
  have hsp := spawnParticles_score M rnd tip.1 tip.2
    (if acc.1.pointsFor M tip.1 tip.2 ≥ 100 then "#ffd54d" else "#ff9e80") 18
    { acc.2 with score := acc.2.score + acc.1.pointsFor M tip.1 tip.2 }
  unfold targetCollision
  rw [if_pos hhit]
  dsimp only
  refine ⟨?_, _, rfl⟩
  split
  · exact hsp
  · exact hsp

/-- No pickup, no pickup collision. -/
theorem collectPowerups_nil (M : MathOps α) (rnd : ℕ → α) (tip : α × α) (s : State α)
    (h : s.powerups = []) : collectPowerups M rnd tip s = { s with powerups := [] } := by
  unfold collectPowerups
  rw [h]
  rfl

/-- The score after the loop body for an arrow in flight whose tip, after its
update, hits the target, when there is no pickup. -/
theorem arrowStep_score_hit (M : MathOps α) (rnd : ℕ → α) (dt : α) (a : Arrow α)
    (acc : Target α × State α) (hst : a.stuck = false) (hpow : acc.2.powerups = [])
    (hhit : acc.1.hit M
      ((a.update M acc.2.gravity acc.2.arrowLen acc.1 dt).tip M acc.2.arrowLen).1
      ((a.update M acc.2.gravity acc.2.arrowLen acc.1 dt).tip M acc.2.arrowLen).2 = true) :
    (arrowStep M rnd dt a acc).2.score = acc.2.score + acc.1.pointsFor M
      ((a.update M acc.2.gravity acc.2.arrowLen acc.1 dt).tip M acc.2.arrowLen).1
      ((a.update M acc.2.gravity acc.2.arrowLen acc.1 dt).tip M acc.2.arrowLen).2 := by
  obtain ⟨h1, b, h2⟩ := targetCollision_score_hit M rnd
    (a.update M acc.2.gravity acc.2.arrowLen acc.1 dt)
    ((a.update M acc.2.gravity acc.2.arrowLen acc.1 dt).tip M acc.2.arrowLen)
    (acc.1, { acc.2 with powerups := [] }) hhit
  unfold arrowStep
  rw [hst]
  simp only [Bool.not_false, if_true]
  rw [collectPowerups_nil M rnd _ acc.2 hpow, h2]
  exact h1

/-- The score after the update phase of a frame in which the time expires,
with no pickup on screen or spawned, the target not wrapping, and a single
arrow in flight whose tip hits the target: the points of the hit are added to
the score the expiry block has just compared with the high score. -/
theorem frameUpdate_score_hit (M : MathOps α) (rnd : ℕ → α) (dt : α) (t : Target α)
    (s : State α) (a : Arrow α) (hexp : s.timeLeft - dt ≤ 0) (harr : s.arrows = [a])
    (hst : a.stuck = false) (hpow : s.powerups = [])
    (hwrap : ¬ t.x + t.vx * dt < - t.radius - 40) (hspawn : ¬ rnd s.randomCalls < 0.003)
    (hhit : Target.hit M { t with x := t.x + t.vx * dt, wobble := t.wobble * 0.94 }
      ((a.update M s.gravity s.arrowLen
        { t with x := t.x + t.vx * dt, wobble := t.wobble * 0.94 } dt).tip M s.arrowLen).1
      ((a.update M s.gravity s.arrowLen
        { t with x := t.x + t.vx * dt, wobble := t.wobble * 0.94 } dt).tip M s.arrowLen).2
      = true) :
    (frameUpdate M rnd dt t s).score = s.score +
      Target.pointsFor M { t with x := t.x + t.vx * dt, wobble := t.wobble * 0.94 }
        ((a.update M s.gravity s.arrowLen
          { t with x := t.x + t.vx * dt, wobble := t.wobble * 0.94 } dt).tip M s.arrowLen).1
        ((a.update M s.gravity s.arrowLen
          { t with x := t.x + t.vx * dt, wobble := t.wobble * 0.94 } dt).tip M s.arrowLen).2 := by
  have g := timeUp_rest { s with timeLeft := s.timeLeft - dt }
  have g1 : (timeUp { s with timeLeft := s.timeLeft - dt }).score = s.score := g.1
  have g2 : (timeUp { s with timeLeft := s.timeLeft - dt }).gravity = s.gravity := g.2.1
  have g3 : (timeUp { s with timeLeft := s.timeLeft - dt }).arrowLen = s.arrowLen := g.2.2.1
  have g4 : (timeUp { s with timeLeft := s.timeLeft - dt }).powerups = s.powerups := g.2.2.2.1
  have g5 : (timeUp { s with timeLeft := s.timeLeft - dt }).arrows = s.arrows := g.2.2.2.2.1
  have g6 : (timeUp { s with timeLeft := s.timeLeft - dt }).randomCalls = s.randomCalls :=
    g.2.2.2.2.2
  clear g
  have e0 : (frameUpdate M rnd dt t s).score =
      (updateArrows M rnd dt
        ((t.update rnd dt (timeUp { s with timeLeft := s.timeLeft - dt })).1,
         updatePowerups dt (spawnPowerup rnd
           (t.update rnd dt (timeUp { s with timeLeft := s.timeLeft - dt })).2))).2.score := by
    unfold frameUpdate
    dsimp only
    rw [if_pos hexp]
    rfl
  rw [e0]
  generalize timeUp { s with timeLeft := s.timeLeft - dt } = s2 at g1 g2 g3 g4 g5 g6
  have hu : t.update rnd dt s2 =
      ({ t with x := t.x + t.vx * dt, wobble := t.wobble * 0.94 }, s2) := by
    unfold Target.update
    dsimp only
    rw [if_neg hwrap]
  have hs4 : spawnPowerup rnd s2 = { s2 with randomCalls := s2.randomCalls + 1 } := by
    unfold spawnPowerup
    dsimp only
    rw [if_neg (by rw [g6]; exact hspawn)]
  rw [hu]
  dsimp only
  rw [hs4]
  have h5 : (updatePowerups dt { s2 with randomCalls := s2.randomCalls + 1 }).arrows = [a] :=
    g5.trans harr
  have key := arrowStep_score_hit M rnd dt a
    ({ t with x := t.x + t.vx * dt, wobble := t.wobble * 0.94 },
     { updatePowerups dt { s2 with randomCalls := s2.randomCalls + 1 } with arrows := [] })
    hst
    (by
      show s2.powerups.foldr _ [] = []
      rw [g4, hpow]
      rfl)
    (by
      show Target.hit M { t with x := t.x + t.vx * dt, wobble := t.wobble * 0.94 }
        ((a.update M s2.gravity s2.arrowLen
          { t with x := t.x + t.vx * dt, wobble := t.wobble * 0.94 } dt).tip M s2.arrowLen).1
        ((a.update M s2.gravity s2.arrowLen
          { t with x := t.x + t.vx * dt, wobble := t.wobble * 0.94 } dt).tip M s2.arrowLen).2
        = true
      rw [g2, g3]
      exact hhit)
  unfold updateArrows
  dsimp only
  rw [h5]
  rw [← g1, ← g2, ← g3]
  exact key

/-- A hit on a target with four rings and the constructor's point table is
worth at least 10 points. -/
theorem pointsFor_ge_of_hit (M : MathOps α) (t : Target α) (r1 r2 r3 : α) (px py : α)
    (hrings : t.rings = [t.radius, r1, r2, r3]) (hp : t.points = [10, 30, 60, 100])
    (hhit : t.hit M px py = true) : 10 ≤ t.pointsFor M px py := by
  have hd : M.hypot (px - t.x) (py - t.y) ≤ t.radius := by simpa [Target.hit] using hhit
  unfold Target.pointsFor
  rw [hrings]
  simp only [List.length_cons, List.length_nil, Target.pointsForFrom, hrings, hp]
  simp only [List.getD_cons_succ, List.getD_cons_zero]
  split_ifs <;> norm_num

/-- The frame in which the time expires while a single arrow in flight hits
the target (no pickup on screen or spawned, the target not wrapping): the
frame returns with the round ended, the high score settled by the comparison
with the score before the hit, and the score raised by the points of the
hit. -/
theorem ending_frame_hit (M : MathOps α) (rnd : ℕ → α) (now : α) (s : State α)
    (t : Target α) (a : Arrow α) (ht : s.target = some t) (hr : s.running = true)
    (hp : s.paused = false) (hexp : s.timeLeft - frameDt now s ≤ 0) (harr : s.arrows = [a])
    (hst : a.stuck = false) (hpow : s.powerups = [])
    (hwrap : ¬ t.x + t.vx * frameDt now s < - t.radius - 40)
    (hspawn : ¬ rnd s.randomCalls < 0.003)
    (hhit : Target.hit M
      { t with x := t.x + t.vx * frameDt now s, wobble := t.wobble * 0.94 }
      ((a.update M s.gravity s.arrowLen
        { t with x := t.x + t.vx * frameDt now s, wobble := t.wobble * 0.94 }
        (frameDt now s)).tip M s.arrowLen).1
      ((a.update M s.gravity s.arrowLen
        { t with x := t.x + t.vx * frameDt now s, wobble := t.wobble * 0.94 }
        (frameDt now s)).tip M s.arrowLen).2 = true) :
    ∃ s1, drawFrame M rnd now s = some s1 ∧ s1.running = false ∧
      s1.highScore = (if s.highScore.ltInt s.score then JSNum.int s.score else s.highScore) ∧
      s1.score = s.score + Target.pointsFor M
        { t with x := t.x + t.vx * frameDt now s, wobble := t.wobble * 0.94 }
        ((a.update M s.gravity s.arrowLen
          { t with x := t.x + t.vx * frameDt now s, wobble := t.wobble * 0.94 }
          (frameDt now s)).tip M s.arrowLen).1
        ((a.update M s.gravity s.arrowLen
          { t with x := t.x + t.vx * frameDt now s, wobble := t.wobble * 0.94 }
          (frameDt now s)).tip M s.arrowLen).2 := by
  refine ⟨_, drawFrame_some M rnd now s t ht, ?_⟩
  rw [if_pos ⟨hr, hp⟩]
  have hk := frameUpdate_keeps M rnd (frameDt now s) t { s with lastTime := now }
  rw [if_pos (by exact hexp)] at hk
  obtain ⟨-, -, k3, -, k5, -⟩ := hk
  refine ⟨?_, ?_, ?_⟩
  · rw [k5]; exact (timeUp_fields _).1
  · rw [k3]; exact (timeUp_fields _).2.1
  · exact frameUpdate_score_hit M rnd (frameDt now s) t { s with lastTime := now } a
      hexp harr hst hpow hwrap hspawn hhit

/-- The same frame for a target with four rings and the constructor's point
table: the score ends at least 10 above the score that was compared with the
high score. -/
theorem ending_frame_hit_ge (M : MathOps α) (rnd : ℕ → α) (now : α) (s : State α)
    (t : Target α) (a : Arrow α) (r1 r2 r3 : α) (ht : s.target = some t)
    (hrings : t.rings = [t.radius, r1, r2, r3]) (hpts : t.points = [10, 30, 60, 100])
    (hr : s.running = true) (hp : s.paused = false)
    (hexp : s.timeLeft - frameDt now s ≤ 0) (harr : s.arrows = [a])
    (hst : a.stuck = false) (hpow : s.powerups = [])
    (hwrap : ¬ t.x + t.vx * frameDt now s < - t.radius - 40)
    (hspawn : ¬ rnd s.randomCalls < 0.003)
    (hhit : Target.hit M
      { t with x := t.x + t.vx * frameDt now s, wobble := t.wobble * 0.94 }
      ((a.update M s.gravity s.arrowLen
        { t with x := t.x + t.vx * frameDt now s, wobble := t.wobble * 0.94 }
        (frameDt now s)).tip M s.arrowLen).1
      ((a.update M s.gravity s.arrowLen
        { t with x := t.x + t.vx * frameDt now s, wobble := t.wobble * 0.94 }
        (frameDt now s)).tip M s.arrowLen).2 = true) :
    ∃ s1, drawFrame M rnd now s = some s1 ∧ s1.running = false ∧
      s1.highScore = (if s.highScore.ltInt s.score then JSNum.int s.score else s.highScore) ∧
      s.score + 10 ≤ s1.score := by
  obtain ⟨s1, h1, h2, h3, h4⟩ := ending_frame_hit M rnd now s t a ht hr hp hexp harr hst hpow
    hwrap hspawn hhit
  have hge := pointsFor_ge_of_hit M
    { t with x := t.x + t.vx * frameDt now s, wobble := t.wobble * 0.94 } r1 r2 r3 _ _
    hrings hpts hhit
  exact ⟨s1, h1, h2, h3, by rw [h4]; linarith⟩

end EndingFrame

section EndingFrameReal

/-- C11 at the failing input: the round `lastShot` is running with score 130,
high score 100, 0.01 s left and an arrow in flight next to the target.  The
frame 50 ms after the last one, with the real `Math` functions and no pickup
spawned, ends the round and records 130 as the high score, and the score it
leaves is at least 140: the final score exceeds the recorded high score. -/
theorem ending_frame_score_above_highScore :
    (lastShot ℝ).running = true ∧ (lastShot ℝ).highScore = JSNum.int 100 ∧
    (lastShot ℝ).score = 130 ∧
    ∃ s1, drawFrame
        ⟨Real.pi, Real.sin, Real.cos, fun y x => Complex.arg ⟨x, y⟩,
          fun x y => Real.sqrt (x ^ 2 + y ^ 2)⟩ (fun _ => 1 / 2) 28550 (lastShot ℝ) = some s1 ∧
      s1.running = false ∧ s1.highScore = JSNum.int 130 ∧ 140 ≤ s1.score ∧
      ¬ (∃ h, s1.highScore = JSNum.int h ∧ s1.score ≤ h) := by
  refine ⟨rfl, rfl, rfl, ?_⟩
  have hdt : frameDt (28550 : ℝ) (lastShot ℝ) = 0.05 := by
    norm_num [frameDt, lastShot, midRound]
  obtain ⟨s1, h1, h2, h3, h4⟩ := ending_frame_hit_ge
    ⟨Real.pi, Real.sin, Real.cos, fun y x => Complex.arg ⟨x, y⟩,
      fun x y => Real.sqrt (x ^ 2 + y ^ 2)⟩ (fun _ => 1 / 2) 28550 (lastShot ℝ) _
    (Arrow.new 480 300 100 0 0) 41 27 15 rfl rfl rfl rfl rfl
    (by rw [hdt]; norm_num [lastShot, midRound]) rfl rfl rfl
    (by rw [hdt]; norm_num) (by norm_num)
    (by
      rw [hdt]
      simp only [Target.hit, Arrow.update, Arrow.tip, Arrow.new, DRAG, lastShot, midRound,
        decide_eq_true_eq, Bool.false_eq_true, if_false]
      generalize Complex.arg _ = θ
      have hc1 := Real.neg_one_le_cos θ
      have hc2 := Real.cos_le_one θ
      have hs1 := Real.neg_one_le_sin θ
      have hs2 := Real.sin_le_one θ
      refine Real.sqrt_le_iff.mpr ⟨by norm_num, ?_⟩
      have e1 : (480 + (100 - 100 * 3e-2 * 5e-2) * 5e-2 + Real.cos θ * 44 / 2 -
          (500 + -180 * 5e-2)) ^ 2 ≤ (29 : ℝ) ^ 2 :=
        sq_le_sq' (by norm_num; linarith) (by norm_num; linarith)
      have e2 : (300 + (0 + 900 * 5e-2 - (0 + 900 * 5e-2) * 3e-2 * 5e-2) * 5e-2 +
          Real.sin θ * 44 / 2 - 300) ^ 2 ≤ (25 : ℝ) ^ 2 :=
        sq_le_sq' (by norm_num; linarith) (by norm_num; linarith)
      calc _ ≤ (29 : ℝ) ^ 2 + 25 ^ 2 := add_le_add e1 e2
        _ ≤ 57 ^ 2 := by norm_num)
  have h3a : s1.highScore = JSNum.int 130 := by rw [h3]; rfl
  have h4a : (140 : ℤ) ≤ s1.score := h4
  refine ⟨s1, h1, h2, h3a, h4a, ?_⟩
  rintro ⟨h, hh, hle⟩
  rw [h3a] at hh
  cases hh
  omega

end EndingFrameReal

end Archery
